import Mathlib

/-!
# snapper command-line client (`client/snapper.cc`)

A shallow embedding of the orchestration logic of the snapper client:
number and range parsing, userdata merging, subvolume path mapping, the
snapshot creation state machine and the undo-list builder, together with
the properties proved about them.

A `std::string` is embedded as the list of its `char` elements.
-/

namespace Snapper

/-- A `std::string`, as the sequence of its characters. -/
abbrev Str := List Char

/-- The ways a command stops early.  All but `PathNotInSubvolume` are a
message on `cerr` followed by `exit(EXIT_FAILURE)`; `PathNotInSubvolume` is
the bare `throw;` of `remove_subvolume`. -/
inductive Failure where
  /-- "Invalid snapshot '%s'." -/
  | InvalidNumber (text : Str)
  /-- "Invalid snapshots." -/
  | InvalidRange
  /-- "Identical snapshots." -/
  | IdenticalEndpoints
  /-- "Invalid userdata." -/
  | InvalidUserdata
  /-- the bare `throw;` in `remove_subvolume` -/
  | PathNotInSubvolume
  /-- "Missing or invalid pre-number." -/
  | MissingPreNumber
  /-- "Missing command argument." -/
  | MissingCommand
  /-- "Unknown type of snapshot." -/
  | UnknownType
  /-- "Command '...' does not take arguments." and its siblings on the argument count -/
  | BadArguments
  /-- "Opening file '%s' failed." -/
  | OpenFailed (name : Str)
  deriving DecidableEq, Repr

/-- Results of fallible steps can be compared. -/
instance instDecidableEqExcept {ε α : Type} [DecidableEq ε] [DecidableEq α] :
    DecidableEq (Except ε α)
  | .ok a, .ok b => if h : a = b then isTrue (by rw [h]) else isFalse (by simpa using h)
  | .error a, .error b => if h : a = b then isTrue (by rw [h]) else isFalse (by simpa using h)
  | .ok _, .error _ => isFalse (by simp)
  | .error _, .ok _ => isFalse (by simp)

/-! ## PathMapper -/

/-- `add_subvolume(subvolume, name)`: `subvolume == "/" ? name : subvolume + name`. -/
def add_subvolume (subvolume name : Str) : Str :=
  if subvolume = ['/'] then name else subvolume ++ name

/-- `remove_subvolume(subvolume, name)`: a bare `throw` unless `name` starts
with `subvolume`; then `name` itself for the root `/`, else `name` from
offset `subvolume.size()` on. -/
def remove_subvolume (subvolume name : Str) : Except Failure Str :=
  if !(subvolume.isPrefixOf name) then
    .error .PathNotInSubvolume
  else if subvolume = ['/'] then
    .ok name
  else
    .ok (name.drop subvolume.length)


/-! ## RangeParser -/

/-- `std::isspace` in the classic locale: space, `\t`, `\n`, `\v`, `\f`, `\r`. -/
def isspace (c : Char) : Bool :=
  c = ' ' || c = '\t' || c = '\n' || c = '\x0b' || c = '\x0c' || c = '\r'

/-- A decimal digit `'0'..'9'`. -/
def isdigit (c : Char) : Bool := 48 ≤ c.toNat && c.toNat ≤ 57

/-- The value of a decimal digit character. -/
def digitVal (c : Char) : Nat := c.toNat - 48

/-- The number a run of decimal digits stands for (most significant first). -/
def digitsValue (ds : Str) : Nat := ds.foldl (fun acc c => 10 * acc + digitVal c) 0

/-- The largest `unsigned int` (32 bits). -/
def UINT_MAX : Nat := 4294967295

/-- What `read_num` looks at after `s >> num`: the stream's `failbit`, its
`eofbit`, and the number stored. -/
structure StreamState where
  fail : Bool
  eof : Bool
  num : Nat
  deriving DecidableEq, Repr

/-- The digit scan of `num_get` after the optional sign: the longest run of
decimal digits is consumed and `eofbit` is set when the scan reaches the end
of the text.  No digit, or a value above `UINT_MAX`, sets `failbit`; after a
`-` the value is negated modulo `2^32`. -/
def scan_digits (negative : Bool) (body : Str) : StreamState :=
  let digits := body.takeWhile isdigit
  let eof := (body.dropWhile isdigit).isEmpty
  if digits.isEmpty then
    { fail := true, eof := eof, num := 0 }
  else if digitsValue digits > UINT_MAX then
    { fail := true, eof := eof, num := UINT_MAX }
  else
    { fail := false, eof := eof,
      num := if negative then (UINT_MAX + 1 - digitsValue digits) % (UINT_MAX + 1)
             else digitsValue digits }

/-- The formatted extraction `istringstream s(str); unsigned int num = 0; s >> num;`
of the C++ standard library (`num_get` in decimal, classic locale):
leading whitespace is skipped (`skipws`); an input exhausted there sets
`eofbit` and `failbit`.  Then one optional sign is consumed and the digits
are scanned. -/
def extract_unsigned (str : Str) : StreamState :=
  match str.dropWhile isspace with
  | [] => { fail := true, eof := true, num := 0 }
  | c :: cs =>
    if c = '-' then scan_digits true cs
    else if c = '+' then scan_digits false cs
    else scan_digits false (c :: cs)

/-- `read_num(str)`: extract an `unsigned int`; "Invalid snapshot" and
`exit(EXIT_FAILURE)` when `s.fail() || !s.eof()`, else the number. -/
def read_num (str : Str) : Except Failure Nat :=
  let s := extract_unsigned str
  if s.fail || !s.eof then .error (.InvalidNumber str) else .ok s.num

/-- `std::string::find(pat)`: the first offset at which `pat` occurs, or `npos`. -/
def find (pat : Str) : Str → Option Nat
  | [] => if pat.isPrefixOf [] then some 0 else none
  | c :: cs => if pat.isPrefixOf (c :: cs) then some 0 else (find pat cs).map (· + 1)

/-- `read_nums(str)`: split at the first `..`, read both numbers, refuse equal ones. -/
def read_nums (str : Str) : Except Failure (Nat × Nat) :=
  match find ['.', '.'] str with
  | none => .error .InvalidRange
  | some pos => do
    let num1 ← read_num (str.take pos)
    let num2 ← read_num (str.drop (pos + 2))
    if num1 = num2 then .error .IdenticalEndpoints else pure (num1, num2)

/-- A text that is exactly an unsigned decimal integer: a non-empty run of
decimal digits and nothing else. -/
def isUnsignedDecimal (s : Str) : Bool := !s.isEmpty && s.all isdigit

/-- What is left of a text once the leading whitespace and the one optional
sign that the numeric scan consumes are removed. -/
def numeric_body (s : Str) : Str :=
  match s.dropWhile isspace with
  | [] => []
  | c :: cs => if c = '-' ∨ c = '+' then cs else c :: cs

/-- The decimal string of a number, as `Nat.repr` prints it. -/
def str (a : Nat) : Str := Nat.toDigits 10 a

/-! ## UserdataMerger -/

/-- The scan behind `boost::split(tmp, s, pred, boost::token_compress_on)`:
`cur` is the token being read and `inSep` tells that the previous character
was a separator.  A separator closes the current token unless it continues a
run of separators (adjacent separators are merged); the end of the input
closes the last token, which is empty when the input ends in a separator. -/
def split_scan (isSep : Char → Bool) : Str → Bool → Str → List Str
  | cur, _, [] => [cur]
  | cur, inSep, c :: cs =>
    if isSep c then
      if inSep then split_scan isSep cur true cs
      else cur :: split_scan isSep [] true cs
    else split_scan isSep (cur ++ [c]) false cs

/-- `boost::split(tmp, s, boost::is_any_of(","), boost::token_compress_on)`. -/
def split (s : Str) : List Str := split_scan (fun c => c = ',') [] false s

/-- `boost::trim_copy`: the text without its leading and trailing whitespace. -/
def trim_copy (s : Str) : Str :=
  ((s.dropWhile isspace).reverse.dropWhile isspace).reverse

/-- A `std::map<string, string>`, as the list of its entries; every key occurs
at most once. -/
abbrev Userdata := List (Str × Str)

/-- `m.find(key)`: the value stored under `key`, if any. -/
def map_find (key : Str) : Userdata → Option Str
  | [] => none
  | (k, v) :: m => if k = key then some v else map_find key m

/-- `m.erase(key)`. -/
def map_erase (key : Str) : Userdata → Userdata
  | [] => []
  | (k, v) :: m => if k = key then map_erase key m else (k, v) :: map_erase key m

/-- `m[key] = value`: overwrite the entry of `key`, or add one. -/
def map_set (key value : Str) : Userdata → Userdata
  | [] => [(key, value)]
  | (k, v) :: m => if k = key then (key, value) :: m else (k, v) :: map_set key value m

/-- The key of a token: the text before its first `=`, trimmed. -/
def token_key (it : Str) : Option Str :=
  (find ['='] it).map (fun pos => trim_copy (it.take pos))

/-- The value of a token: the text after its first `=`, trimmed. -/
def token_value (it : Str) : Option Str :=
  (find ['='] it).map (fun pos => trim_copy (it.drop (pos + 1)))

/-- The body of the loop of `read_userdata`, for one token `it`. -/
def read_userdata_step (userdata : Userdata) (it : Str) : Except Failure Userdata :=
  match find ['='] it with
  | none => .error .InvalidUserdata
  | some pos =>
    let key := trim_copy (it.take pos)
    let value := trim_copy (it.drop (pos + 1))
    if key.isEmpty then .error .InvalidUserdata
    else if value.isEmpty then .ok (map_erase key userdata)
    else .ok (map_set key value userdata)

/-- `read_userdata(s, old)`: split `s` at commas and apply every `key=value`
token to a copy of `old`, in order. -/
def read_userdata (s : Str) (old : Userdata) : Except Failure Userdata :=
  let tmp := split s
  if tmp.isEmpty then .error .InvalidUserdata
  else tmp.foldlM read_userdata_step old

/-- A well-formed token: it has a `=` and its key is not empty after trimming. -/
def well_formed (it : Str) : Bool :=
  match token_key it with
  | none => false
  | some key => !key.isEmpty

/-- The last token of a list whose key is `key`. -/
def last_token (key : Str) (tokens : List Str) : Option Str :=
  (tokens.filter (fun it => token_key it = some key)).getLast?

/-- The entry the merge semantics gives to `key`: that of `old` when no token
names `key`; otherwise the value of the last token naming it, or none when
that value is empty. -/
def merged_entry (old : Userdata) (tokens : List Str) (key : Str) : Option Str :=
  match last_token key tokens with
  | none => map_find key old
  | some it =>
    match token_value it with
    | some value => if value.isEmpty then none else some value
    | none => none

/-- The comma-separated tokens of a text in the plain sense: every comma
ends a token, so two adjacent commas enclose an empty token. -/
def comma_tokens : Str → List Str
  | [] => [[]]
  | c :: cs =>
    if c = ',' then [] :: comma_tokens cs
    else
      match comma_tokens cs with
      | [] => [[c]]
      | t :: ts => (c :: t) :: ts

/-! ## Commands: the service, effects and outcomes -/

/-- A `GetOpts::parsed_opts`: the options found on the command line, by name. -/
abbrev parsed_opts := List (Str × Str)

/-- An exception raised by a call to the snapper service. -/
inductive DBusException where
  /-- `DBus::ErrorException`, with its `name()` -/
  | ErrorException (name : Str)
  /-- `DBus::FatalException`, with its `what()` -/
  | FatalException (what : Str)
  deriving DecidableEq, Repr

/-- An `XConfigInfo`, as the service reports it. -/
structure XConfigInfo where
  config_name : Str
  subvolume : Str
  deriving DecidableEq, Repr

/-- An `XFile`: a file of a comparison and its status. -/
structure XFile where
  name : Str
  status : Str
  deriving DecidableEq, Repr

/-- An `XUndo`: an undo directive. -/
structure XUndo where
  name : Str
  undo : Bool
  deriving DecidableEq, Repr

/-- An `XUndoStatistic`. -/
structure XUndoStatistic where
  numCreate : Nat
  numModify : Nat
  numDelete : Nat
  deriving DecidableEq, Repr

/-- Modelled from the spec: `XUndoStatistic::empty()`, declared outside this
file; "empty" means all three counts are zero. -/
def XUndoStatistic.empty (s : XUndoStatistic) : Bool :=
  s.numCreate = 0 && s.numModify = 0 && s.numDelete = 0

/-- What a service call gives back: a value or an exception. -/
abbrev Reply (α : Type) := Except DBusException α

/-- One observable effect of a command: a call to the service with its reply,
the run of an external command, or a line written to `cout` or to an output
file. -/
inductive Event where
  | create_single_xsnapshot (config description cleanup : Str) (userdata : Userdata)
      (reply : Reply Nat)
  | create_pre_xsnapshot (config description cleanup : Str) (userdata : Userdata)
      (reply : Reply Nat)
  | create_post_xsnapshot (config : Str) (prenum : Nat) (description cleanup : Str)
      (userdata : Userdata) (reply : Reply Nat)
  | system (command : Str)
  | create_xcomparison (config : Str) (number1 number2 : Nat) (reply : Reply Unit)
  | get_xfiles (config : Str) (number1 number2 : Nat) (reply : Reply (List XFile))
  | get_xconfig (config : Str) (reply : Reply XConfigInfo)
  | set_xundo (config : Str) (number1 number2 : Nat) (undos : List XUndo) (reply : Reply Unit)
  | set_xundo_all (config : Str) (number1 number2 : Nat) (undo : Bool) (reply : Reply Unit)
  | get_xundostatistic (config : Str) (number1 number2 : Nat) (reply : Reply XUndoStatistic)
  | xundo_changes (config : Str) (number1 number2 : Nat) (reply : Reply Unit)
  | cout (line : Str)
  | file_line (file line : Str)
  deriving DecidableEq, Repr

/-- The collaborators of the commands, over their own state `σ`: the calls to
the snapper service declared in `commands.h` and the `system` call.  Each
takes the state before the call and gives its reply with the state after. -/
structure Service (σ : Type) where
  create_single_xsnapshot : σ → Str → Str → Str → Userdata → Reply Nat × σ
  create_pre_xsnapshot : σ → Str → Str → Str → Userdata → Reply Nat × σ
  create_post_xsnapshot : σ → Str → Nat → Str → Str → Userdata → Reply Nat × σ
  system : σ → Str → Int × σ
  create_xcomparison : σ → Str → Nat → Nat → Reply Unit × σ
  get_xfiles : σ → Str → Nat → Nat → Reply (List XFile) × σ
  get_xconfig : σ → Str → Reply XConfigInfo × σ
  set_xundo : σ → Str → Nat → Nat → List XUndo → Reply Unit × σ
  set_xundo_all : σ → Str → Nat → Nat → Bool → Reply Unit × σ
  get_xundostatistic : σ → Str → Nat → Nat → Reply XUndoStatistic × σ
  xundo_changes : σ → Str → Nat → Nat → Reply Unit × σ

/-- How a command handler ends: it returns, it stops the process early on a
local error, or an exception of a service call leaves it. -/
inductive Outcome (α : Type) where
  | ret (a : α)
  | exit (f : Failure)
  | thrown (e : DBusException)
  deriving DecidableEq, Repr

/-- The run of a command from a service state: how it ended, the state
after, and the effects it performed, in order. -/
structure Run (σ α : Type) where
  outcome : Outcome α
  state : σ
  trace : List Event

/-- A command: a computation over the service state that records its effects. -/
def Cmd (σ α : Type) : Type := σ → Run σ α

/-- Returning a value performs no effect. -/
def Cmd.pure {σ α : Type} (a : α) : Cmd σ α :=
  fun s => { outcome := .ret a, state := s, trace := [] }

/-- Sequencing: the second part runs only if the first returned. -/
def Cmd.bind {σ α β : Type} (x : Cmd σ α) (f : α → Cmd σ β) : Cmd σ β :=
  fun s =>
    let r := x s
    match r.outcome with
    | .ret a =>
      let r2 := f a r.state
      { outcome := r2.outcome, state := r2.state, trace := r.trace ++ r2.trace }
    | .exit e => { outcome := .exit e, state := r.state, trace := r.trace }
    | .thrown e => { outcome := .thrown e, state := r.state, trace := r.trace }

instance instMonadCmd {σ : Type} : Monad (Cmd σ) where
  pure := Cmd.pure
  bind := Cmd.bind

/-- A local error: the message goes to `cerr` and the process stops. -/
def Cmd.fail {σ α : Type} (f : Failure) : Cmd σ α :=
  fun s => { outcome := .exit f, state := s, trace := [] }

/-- A local, effect-free step that may stop the process. -/
def Cmd.lift {σ α : Type} : Except Failure α → Cmd σ α
  | .ok a => Cmd.pure a
  | .error f => Cmd.fail f

/-- A call to the service: the event is recorded with its reply, and an
exception propagates. -/
def Cmd.call {σ α : Type} (f : σ → Reply α × σ) (ev : Reply α → Event) : Cmd σ α :=
  fun s =>
    let r := f s
    match r.1 with
    | .ok a => { outcome := .ret a, state := r.2, trace := [ev r.1] }
    | .error e => { outcome := .thrown e, state := r.2, trace := [ev r.1] }

/-- `system(command.c_str())`; the exit status is dropped. -/
def Cmd.system {σ : Type} (svc : Service σ) (command : Str) : Cmd σ Unit :=
  fun s => { outcome := .ret (), state := (svc.system s command).2, trace := [.system command] }

/-- `cout << line << endl`. -/
def Cmd.cout {σ : Type} (line : Str) : Cmd σ Unit :=
  fun s => { outcome := .ret (), state := s, trace := [.cout line] }

/-- Every effect of a command, from any state, satisfies `P`. -/
def trace_all {σ α : Type} (P : Event → Prop) (x : Cmd σ α) : Prop :=
  ∀ s, ∀ e ∈ (x s).trace, P e

/-! ## SnapshotCreationOrchestrator -/

/-- `enum CreateType`. -/
inductive CreateType where
  | CT_SINGLE | CT_PRE | CT_POST | CT_PRE_POST
  deriving DecidableEq, Repr

/-- The local variables of `command_create` once the options are read. -/
structure CreateRequest where
  type : CreateType
  num1 : Nat
  print_number : Bool
  description : Str
  cleanup : Str
  userdata : Userdata
  command : Str
  deriving DecidableEq, Repr

/-- The `--type` option of `create`. -/
def read_create_type (opts : parsed_opts) : Except Failure CreateType :=
  match map_find "type".toList opts with
  | none => .ok .CT_SINGLE
  | some v =>
    if v = "single".toList then .ok .CT_SINGLE
    else if v = "pre".toList then .ok .CT_PRE
    else if v = "post".toList then .ok .CT_POST
    else if v = "pre-post".toList then .ok .CT_PRE_POST
    else .error .UnknownType

/-- The `--pre-number` option of `create`: `num1`, which stays 0 without it. -/
def read_pre_number (opts : parsed_opts) : Except Failure Nat :=
  match map_find "pre-number".toList opts with
  | some v => read_num v
  | none => .ok 0

/-- The `--userdata` option of `create`: empty without it. -/
def read_userdata_option (opts : parsed_opts) : Except Failure Userdata :=
  match map_find "userdata".toList opts with
  | some v => read_userdata v []
  | none => .ok []

/-- The first part of `command_create`, up to the `switch`: the options are
read and validated; no call to the service is made here. -/
def command_create_options (opts : parsed_opts) (hasArgs : Bool) :
    Except Failure CreateRequest :=
  if hasArgs then .error .BadArguments
  else
    match read_create_type opts with
    | .error f => .error f
    | .ok type0 =>
      match read_pre_number opts with
      | .error f => .error f
      | .ok num1 =>
        let print_number := (map_find "print-number".toList opts).isSome
        let description := (map_find "description".toList opts).getD []
        let cleanup := (map_find "cleanup-algorithm".toList opts).getD []
        match read_userdata_option opts with
        | .error f => .error f
        | .ok userdata =>
          let command := (map_find "command".toList opts).getD []
          let type :=
            if (map_find "command".toList opts).isSome then CreateType.CT_PRE_POST else type0
          if type = .CT_POST ∧ num1 = 0 then .error .MissingPreNumber
          else if type = .CT_PRE_POST ∧ command.isEmpty then .error .MissingCommand
          else .ok { type := type, num1 := num1, print_number := print_number,
                     description := description, cleanup := cleanup, userdata := userdata,
                     command := command }

/-- The `switch (type)` of `command_create`. -/
def command_create_switch {σ : Type} (svc : Service σ) (config_name : Str)
    (r : CreateRequest) : Cmd σ Unit :=
  match r.type with
  | .CT_SINGLE => do
    let num1 ← Cmd.call (fun s => svc.create_single_xsnapshot s config_name r.description
        r.cleanup r.userdata)
      (Event.create_single_xsnapshot config_name r.description r.cleanup r.userdata)
    if r.print_number then Cmd.cout (str num1)
  | .CT_PRE => do
    let num1 ← Cmd.call (fun s => svc.create_pre_xsnapshot s config_name r.description
        r.cleanup r.userdata)
      (Event.create_pre_xsnapshot config_name r.description r.cleanup r.userdata)
    if r.print_number then Cmd.cout (str num1)
  | .CT_POST => do
    let num2 ← Cmd.call (fun s => svc.create_post_xsnapshot s config_name r.num1 r.description
        r.cleanup r.userdata)
      (Event.create_post_xsnapshot config_name r.num1 r.description r.cleanup r.userdata)
    if r.print_number then Cmd.cout (str num2)
  | .CT_PRE_POST => do
    let num1 ← Cmd.call (fun s => svc.create_pre_xsnapshot s config_name r.description
        r.cleanup r.userdata)
      (Event.create_pre_xsnapshot config_name r.description r.cleanup r.userdata)
    Cmd.system svc r.command
    let num2 ← Cmd.call (fun s => svc.create_post_xsnapshot s config_name num1 []
        r.cleanup r.userdata)
      (Event.create_post_xsnapshot config_name num1 [] r.cleanup r.userdata)
    if r.print_number then Cmd.cout (str num1 ++ "..".toList ++ str num2)

/-- `command_create`: read the options, then create the snapshot or snapshots. -/
def command_create {σ : Type} (svc : Service σ) (config_name : Str) (opts : parsed_opts)
    (hasArgs : Bool) : Cmd σ Unit := do
  let r ← Cmd.lift (command_create_options opts hasArgs)
  command_create_switch svc config_name r

/-! ## UndoListBuilder -/

/-- The `--input` option of `undochange`: the lines of the file when it opens
(`open_file` stands for `fopen` and the line reader), `NULL` without the option. -/
def open_input (opts : parsed_opts) (open_file : Str → Option (List Str)) :
    Except Failure (Option (List Str)) :=
  match map_find "input".toList opts with
  | none => .ok none
  | some name =>
    match open_file name with
    | some lines => .ok (some lines)
    | none => .error (.OpenFailed name)

/-- The loop of `command_undo` over the lines of the input file: an empty line
is skipped; a line that does not start with `/` loses its text up to and
including the first blank, or is skipped when it has none; the name is mapped
with `remove_subvolume` and appended to `undos` with `undo = true`. -/
def read_undo_file (subvolume : Str) : List XUndo → List Str → Except Failure (List XUndo)
  | undos, [] => .ok undos
  | undos, line :: rest =>
    if line.isEmpty then read_undo_file subvolume undos rest
    else if line.head? ≠ some '/' then
      match find [' '] line with
      | none => read_undo_file subvolume undos rest
      | some pos =>
        match remove_subvolume subvolume (line.drop (pos + 1)) with
        | .error f => .error f
        | .ok name => read_undo_file subvolume (undos ++ [{ name := name, undo := true }]) rest
    else
      match remove_subvolume subvolume line with
      | .error f => .error f
      | .ok name => read_undo_file subvolume (undos ++ [{ name := name, undo := true }]) rest

/-- The loop of `command_undo` over the path arguments. -/
def read_undo_args (subvolume : Str) : List XUndo → List Str → Except Failure (List XUndo)
  | undos, [] => .ok undos
  | undos, arg :: rest =>
    match remove_subvolume subvolume arg with
    | .error f => .error f
    | .ok name => read_undo_args subvolume (undos ++ [{ name := name, undo := true }]) rest

/-- The first part of `command_undo`, up to the undo set being submitted:
the range is read, the comparison created and the undo directives sent,
from the input file, from the path arguments, or as "undo all". -/
def command_undo_select {σ : Type} (svc : Service σ) (config_name : Str) (opts : parsed_opts)
    (args : List Str) (open_file : Str → Option (List Str)) : Cmd σ (Nat × Nat) :=
  match args with
  | [] => Cmd.fail .BadArguments
  | arg :: args => do
    let nums ← Cmd.lift (read_nums arg)
    let file ← Cmd.lift (open_input opts open_file)
    if nums.1 = 0 then Cmd.fail .InvalidRange
    else do
      Cmd.call (fun s => svc.create_xcomparison s config_name nums.1 nums.2)
        (Event.create_xcomparison config_name nums.1 nums.2)
      let _files ← Cmd.call (fun s => svc.get_xfiles s config_name nums.1 nums.2)
        (Event.get_xfiles config_name nums.1 nums.2)
      match file with
      | some lines => do
        let ci ← Cmd.call (fun s => svc.get_xconfig s config_name) (Event.get_xconfig config_name)
        let undos ← Cmd.lift (read_undo_file ci.subvolume [] lines)
        Cmd.call (fun s => svc.set_xundo s config_name nums.1 nums.2 undos)
          (Event.set_xundo config_name nums.1 nums.2 undos)
        pure nums
      | none =>
        if args.isEmpty then do
          Cmd.call (fun s => svc.set_xundo_all s config_name nums.1 nums.2 true)
            (Event.set_xundo_all config_name nums.1 nums.2 true)
          pure nums
        else do
          let ci ← Cmd.call (fun s => svc.get_xconfig s config_name)
            (Event.get_xconfig config_name)
          let undos ← Cmd.lift (read_undo_args ci.subvolume [] args)
          Cmd.call (fun s => svc.set_xundo s config_name nums.1 nums.2 undos)
            (Event.set_xundo config_name nums.1 nums.2 undos)
          pure nums

/-- The text `sformat("create:%d modify:%d delete:%d", ...)`. -/
def show_statistic (s : XUndoStatistic) : Str :=
  "create:".toList ++ str s.numCreate ++ " modify:".toList ++ str s.numModify
    ++ " delete:".toList ++ str s.numDelete

/-- The last part of `command_undo`: the statistics are fetched; when they are
empty "nothing to do" is printed and the command returns, otherwise the
counts are printed and the undo is applied. -/
def command_undo_commit {σ : Type} (svc : Service σ) (config_name : Str) (nums : Nat × Nat) :
    Cmd σ Unit := do
  let s ← Cmd.call (fun st => svc.get_xundostatistic st config_name nums.1 nums.2)
    (Event.get_xundostatistic config_name nums.1 nums.2)
  if s.empty then
    Cmd.cout "nothing to do".toList
  else do
    Cmd.cout (show_statistic s)
    Cmd.call (fun st => svc.xundo_changes st config_name nums.1 nums.2)
      (Event.xundo_changes config_name nums.1 nums.2)

/-- `command_undo`. -/
def command_undo {σ : Type} (svc : Service σ) (config_name : Str) (opts : parsed_opts)
    (args : List Str) (open_file : Str → Option (List Str)) : Cmd σ Unit := do
  let nums ← command_undo_select svc config_name opts args open_file
  command_undo_commit svc config_name nums

/-- The path that a line of the input file contributes, as the rule of the
specification words it: none for an empty line; the whole line when its first
character is `/`; otherwise the text after the first blank, or none when the
line holds no blank. -/
def undo_line_path (line : Str) : Option Str :=
  match line with
  | [] => none
  | c :: cs =>
    if c = '/' then some (c :: cs)
    else if ' ' ∈ c :: cs then some (((c :: cs).dropWhile (fun d => d ≠ ' ')).drop 1)
    else none

/-- The directives for a list of paths: each path mapped with
`remove_subvolume` and marked `undo = true`, in order; the first path that
is not under the subvolume stops the command. -/
def undo_directives (subvolume : Str) : List Str → Except Failure (List XUndo)
  | [] => .ok []
  | path :: paths =>
    match remove_subvolume subvolume path with
    | .error f => .error f
    | .ok name =>
      match undo_directives subvolume paths with
      | .error f => .error f
      | .ok undos => .ok ({ name := name, undo := true } :: undos)

/-- An event that applies the undo (`command_xundo_changes`). -/
def is_xundo_changes : Event → Bool
  | .xundo_changes _ _ _ _ => true
  | _ => false

/-- An event of the last part of `command_undo`: the statistics or the commit. -/
def is_commit_event : Event → Bool
  | .xundo_changes _ _ _ _ => true
  | .get_xundostatistic _ _ _ _ => true
  | _ => false

/-! ## Status listing -/

/-- The `--output` option of `status`: `stdout` without it, else the file when
it opens for writing (`can_open` stands for `fopen`). -/
def open_output (opts : parsed_opts) (can_open : Str → Bool) : Except Failure (Option Str) :=
  match map_find "output".toList opts with
  | none => .ok none
  | some name => if can_open name then .ok (some name) else .error (.OpenFailed name)

/-- The line that `fprintf(file, "%s %s\n", status, add_subvolume(subvolume, name))`
writes for a file of the comparison, without its newline. -/
def status_line (subvolume : Str) (f : XFile) : Str :=
  f.status ++ [' '] ++ add_subvolume subvolume f.name

/-- The effect of writing a line to `file`: `stdout`, or the output file. -/
def output_event : Option Str → Str → Event
  | none, line => .cout line
  | some name, line => .file_line name line

/-- `fprintf(file, ...)` of one line, to `stdout` or to the output file. -/
def Cmd.fprintf {σ : Type} (file : Option Str) (line : Str) : Cmd σ Unit :=
  fun s => { outcome := .ret (), state := s, trace := [output_event file line] }

/-- The loop of `command_status` over the files of the comparison. -/
def write_status {σ : Type} (file : Option Str) (subvolume : Str) : List XFile → Cmd σ Unit
  | [] => Cmd.pure ()
  | f :: fs => Cmd.bind (Cmd.fprintf file (status_line subvolume f))
      (fun _ => write_status file subvolume fs)

/-- `command_status`: the comparison is created, its files fetched and one
line per file written. -/
def command_status {σ : Type} (svc : Service σ) (config_name : Str) (opts : parsed_opts)
    (args : List Str) (can_open : Str → Bool) : Cmd σ Unit :=
  match args with
  | [arg] => do
    let nums ← Cmd.lift (read_nums arg)
    Cmd.call (fun s => svc.create_xcomparison s config_name nums.1 nums.2)
      (Event.create_xcomparison config_name nums.1 nums.2)
    let files ← Cmd.call (fun s => svc.get_xfiles s config_name nums.1 nums.2)
      (Event.get_xfiles config_name nums.1 nums.2)
    let file ← Cmd.lift (open_output opts can_open)
    let ci ← Cmd.call (fun s => svc.get_xconfig s config_name) (Event.get_xconfig config_name)
    write_status file ci.subvolume files
  | _ => Cmd.fail .BadArguments

/-! ## main -/

/-- `EXIT_SUCCESS`. -/
def EXIT_SUCCESS : Nat := 0

/-- `EXIT_FAILURE`. -/
def EXIT_FAILURE : Nat := 1

/-- How the process ends: `exit(code)`, or `std::terminate` after the bare
`throw` of `remove_subvolume`. -/
inductive ProcessEnd where
  | exited (code : Nat)
  | terminated
  deriving DecidableEq, Repr

/-- The line that the `catch` handlers of `main` write to `cerr`. -/
def catch_message : DBusException → Str
  | .ErrorException name =>
    if name = "error.unknown_config".toList then "Unknown config.".toList
    else if name = "error.no_permissions".toList then "No permissions.".toList
    else if name = "error.invalid_userdata".toList then "Invalid userdata.".toList
    else if name = "error.illegal_snapshot".toList then "Illegal Snapshot.".toList
    else "Failure (".toList ++ name ++ ").".toList
  | .FatalException what => "Failure (".toList ++ what ++ ").".toList

/-- The end of `main`, once the command `cmd` is selected: the handler runs
inside `try`; an `exit(EXIT_FAILURE)` or the bare `throw` inside it ends the
process there; a `DBus::ErrorException` or `DBus::FatalException` is caught
and reported on `cerr`; then `exit(EXIT_SUCCESS)`.  The result is how the
process ends and what the handlers wrote to `cerr`. -/
def main {σ : Type} (cmd : Cmd σ Unit) (s : σ) : ProcessEnd × List Str :=
  match (cmd s).outcome with
  | .exit f => (if f = .PathNotInSubvolume then .terminated else .exited EXIT_FAILURE, [])
  | .thrown e => (.exited EXIT_SUCCESS, [catch_message e])
  | .ret _ => (.exited EXIT_SUCCESS, [])

/-- A service that knows no config: every call raises `error.unknown_config`. -/
def unknown_config_service : Service Unit where
  create_single_xsnapshot := fun s _ _ _ _ =>
    (.error (.ErrorException "error.unknown_config".toList), s)
  create_pre_xsnapshot := fun s _ _ _ _ =>
    (.error (.ErrorException "error.unknown_config".toList), s)
  create_post_xsnapshot := fun s _ _ _ _ _ =>
    (.error (.ErrorException "error.unknown_config".toList), s)
  system := fun s _ => (0, s)
  create_xcomparison := fun s _ _ _ => (.error (.ErrorException "error.unknown_config".toList), s)
  get_xfiles := fun s _ _ _ => (.error (.ErrorException "error.unknown_config".toList), s)
  get_xconfig := fun s _ => (.error (.ErrorException "error.unknown_config".toList), s)
  set_xundo := fun s _ _ _ _ => (.error (.ErrorException "error.unknown_config".toList), s)
  set_xundo_all := fun s _ _ _ _ => (.error (.ErrorException "error.unknown_config".toList), s)
  get_xundostatistic := fun s _ _ _ =>
    (.error (.ErrorException "error.unknown_config".toList), s)
  xundo_changes := fun s _ _ _ => (.error (.ErrorException "error.unknown_config".toList), s)

/-- A service that numbers snapshots from its state. -/
def demo_service : Service Nat where
  create_single_xsnapshot := fun s _ _ _ _ => (.ok (s + 1), s + 1)
  create_pre_xsnapshot := fun s _ _ _ _ => (.ok (s + 1), s + 1)
  create_post_xsnapshot := fun s _ _ _ _ _ => (.ok (s + 1), s + 1)
  system := fun s _ => (0, s)
  create_xcomparison := fun s _ _ _ => (.ok (), s)
  get_xfiles := fun s _ _ _ => (.ok [], s)
  get_xconfig := fun s c => (.ok { config_name := c, subvolume := "/".toList }, s)
  set_xundo := fun s _ _ _ _ => (.ok (), s)
  set_xundo_all := fun s _ _ _ _ => (.ok (), s)
  get_xundostatistic := fun s _ _ _ => (.ok { numCreate := s, numModify := 0, numDelete := 0 }, s)
  xundo_changes := fun s _ _ _ => (.ok (), s)

/-! ## Path mapping: proofs -/

theorem isPrefixOf_append_self (a b : Str) : a.isPrefixOf (a ++ b) = true := by
  induction a with
  | nil => simp
  | cons c cs ih => simp

/-- C1: for every subvolume root `R` (the root `/` included) and every
relative path `p` beginning with `/`, mapping `p` to its absolute form and
back succeeds and gives exactly `p`. -/
theorem remove_add_subvolume (R p : Str) (hp : p.head? = some '/') :
    remove_subvolume R (add_subvolume R p) = .ok p := by
  unfold add_subvolume remove_subvolume
  by_cases hR : R = ['/']
  · subst hR
    cases p with
    | nil => simp at hp
    | cons c cs =>
      simp only [List.head?_cons, Option.some.injEq] at hp
      subst hp
      simp
  · simp [hR, isPrefixOf_append_self]

theorem remove_add_subvolume_witness :
    ("/etc/fstab".toList).head? = some '/' ∧
    remove_subvolume "/home".toList (add_subvolume "/home".toList "/etc/fstab".toList)
      = .ok "/etc/fstab".toList :=
  ⟨by decide, remove_add_subvolume "/home".toList "/etc/fstab".toList (by decide)⟩

/-! ## Number parsing: proofs -/

theorem isdigit_not_isspace {c : Char} (h : isdigit c = true) : isspace c = false := by
  simp only [isdigit, Bool.and_eq_true, decide_eq_true_eq] at h
  simp only [isspace, Bool.or_eq_false_iff, decide_eq_false_iff_not]
  refine ⟨⟨⟨⟨⟨?_, ?_⟩, ?_⟩, ?_⟩, ?_⟩, ?_⟩ <;> (rintro rfl; revert h; decide)

theorem isdigit_not_sign {c : Char} (h : isdigit c = true) : ¬ (c = '-' ∨ c = '+') := by
  simp only [isdigit, Bool.and_eq_true, decide_eq_true_eq] at h
  rintro (rfl | rfl) <;> (revert h; decide)

theorem digitChar_isdigit {m : Nat} (h : m < 10) :
    isdigit (Nat.digitChar m) = true ∧ digitVal (Nat.digitChar m) = m := by
  interval_cases m <;> exact ⟨by decide, by decide⟩

theorem digitsValue_append_singleton (l : Str) (c : Char) :
    digitsValue (l ++ [c]) = 10 * digitsValue l + digitVal c := by
  simp [digitsValue, List.foldl_append]

theorem toDigitsCore_spec (fuel : Nat) : ∀ (n : Nat) (ds : Str), n < fuel →
    ∃ l : Str, Nat.toDigitsCore 10 fuel n ds = l ++ ds ∧ l ≠ [] ∧
      (∀ c ∈ l, isdigit c = true) ∧ digitsValue l = n := by
  induction fuel with
  | zero => intro n ds h; omega
  | succ fuel ih =>
    intro n ds h
    have hd := digitChar_isdigit (Nat.mod_lt n (by decide : 10 > 0))
    unfold Nat.toDigitsCore
    by_cases h0 : n / 10 = 0
    · refine ⟨[Nat.digitChar (n % 10)], by simp [h0], by simp, by simpa using hd.1, ?_⟩
      have hn : n % 10 = n := by omega
      simp only [digitsValue, List.foldl, hd.2]
      omega
    · obtain ⟨l, hl, hne, hdig, hval⟩ := ih (n / 10) (Nat.digitChar (n % 10) :: ds) (by omega)
      refine ⟨l ++ [Nat.digitChar (n % 10)], by simp [h0, hl], by simp, ?_, ?_⟩
      · intro c hc
        rcases List.mem_append.mp hc with hc | hc
        · exact hdig c hc
        · simp only [List.mem_singleton] at hc
          rw [hc]; exact hd.1
      · rw [digitsValue_append_singleton, hval, hd.2]; omega

theorem str_spec (a : Nat) :
    str a ≠ [] ∧ (∀ c ∈ str a, isdigit c = true) ∧ digitsValue (str a) = a := by
  obtain ⟨l, hl, hne, hdig, hval⟩ := toDigitsCore_spec (a + 1) a [] (by omega)
  have : str a = l := by simpa [str, Nat.toDigits] using hl
  rw [this]; exact ⟨hne, hdig, hval⟩

theorem takeWhile_all {p : Char → Bool} {l : Str} (h : ∀ c ∈ l, p c = true) :
    l.takeWhile p = l := by
  induction l with
  | nil => rfl
  | cons c cs ih =>
    have hc := h c (by simp)
    simp [List.takeWhile, hc, ih (fun d hd => h d (by simp [hd]))]

theorem dropWhile_all {p : Char → Bool} {l : Str} (h : ∀ c ∈ l, p c = true) :
    l.dropWhile p = [] := by
  induction l with
  | nil => rfl
  | cons c cs ih =>
    have hc := h c (by simp)
    simp [List.dropWhile, hc, ih (fun d hd => h d (by simp [hd]))]

/-- A non-empty run of digits within range reads as its value. -/
theorem read_num_digits (l : Str) (hne : l ≠ []) (hdig : ∀ c ∈ l, isdigit c = true)
    (hmax : digitsValue l ≤ UINT_MAX) : read_num l = .ok (digitsValue l) := by
  cases l with
  | nil => exact absurd rfl hne
  | cons c cs =>
    have hc : isdigit c = true := hdig c (by simp)
    have hsp : isspace c = false := isdigit_not_isspace hc
    have hsg : ¬ (c = '-' ∨ c = '+') := isdigit_not_sign hc
    have hneg : ¬ c = '-' := fun h => hsg (Or.inl h)
    have hpos : ¬ c = '+' := fun h => hsg (Or.inr h)
    have ht : (c :: cs).takeWhile isdigit = c :: cs := takeWhile_all hdig
    have hd : (c :: cs).dropWhile isdigit = [] := dropWhile_all hdig
    have hle : ¬ digitsValue (c :: cs) > UINT_MAX := by omega
    have hscan : scan_digits false (c :: cs)
        = { fail := false, eof := true, num := digitsValue (c :: cs) } := by
      unfold scan_digits
      simp only [ht, hd, if_neg hle]
      simp
    have hws : (c :: cs).dropWhile isspace = c :: cs := by simp [List.dropWhile, hsp]
    simp [read_num, extract_unsigned, hws, if_neg hneg, if_neg hpos, hscan]

/-- C3: the decimal string of every number that fits an `unsigned int`
(`0 <= a < 2^32`) is read back by `read_num` as that number. -/
theorem read_num_str (a : Nat) (ha : a < 2 ^ 32) : read_num (str a) = .ok a := by
  obtain ⟨hne, hdig, hval⟩ := str_spec a
  have := read_num_digits (str a) hne hdig (by rw [hval]; simp only [UINT_MAX]; omega)
  rw [hval] at this
  exact this

theorem read_num_str_witness : 4294967295 < 2 ^ 32 ∧ read_num (str 4294967295) = .ok 4294967295 :=
  ⟨by decide, read_num_str 4294967295 (by decide)⟩

theorem scan_digits_rejects (negative : Bool) (body : Str)
    (h : isUnsignedDecimal body = false) :
    ((scan_digits negative body).fail || !(scan_digits negative body).eof) = true := by
  by_cases hd : body.dropWhile isdigit = []
  · have htake : body.takeWhile isdigit = body := by
      have := List.takeWhile_append_dropWhile isdigit body
      rw [hd, List.append_nil] at this
      exact this
    have hall : body.all isdigit = true := by
      rw [List.all_eq_true]
      intro c hc
      rw [← htake] at hc
      exact List.mem_takeWhile_imp hc
    have hemp : body = [] := by
      cases body with
      | nil => rfl
      | cons c cs => simp [isUnsignedDecimal, hall] at h
    subst hemp
    simp [scan_digits]
  · have he : (body.dropWhile isdigit).isEmpty = false := by
      cases hb : body.dropWhile isdigit with
      | nil => exact absurd hb hd
      | cons c cs => rfl
    unfold scan_digits
    simp only [he]
    split_ifs <;> simp

/-- C4 (as the code has it): a text that, once the leading whitespace and the
one optional sign consumed by the numeric scan are removed, is not exactly an
unsigned decimal integer (it is empty, does not start with a digit, or has
any further character after its digits) is refused by `read_num` with
`InvalidNumber`. -/
theorem read_num_rejects (s : Str) (h : isUnsignedDecimal (numeric_body s) = false) :
    read_num s = .error (.InvalidNumber s) := by
  have key : ((extract_unsigned s).fail || !(extract_unsigned s).eof) = true := by
    unfold extract_unsigned
    unfold numeric_body at h
    cases hws : s.dropWhile isspace with
    | nil => simp
    | cons c cs =>
      rw [hws] at h
      simp only at h ⊢
      by_cases hm : c = '-'
      · rw [if_pos hm]
        rw [if_pos (Or.inl hm)] at h
        exact scan_digits_rejects true cs h
      · rw [if_neg hm]
        by_cases hp : c = '+'
        · rw [if_pos hp]
          rw [if_pos (Or.inr hp)] at h
          exact scan_digits_rejects false cs h
        · rw [if_neg hp]
          rw [if_neg (by rintro (h1 | h1) <;> contradiction)] at h
          exact scan_digits_rejects false (c :: cs) h
  simp only [read_num]
  rw [if_pos key]

theorem read_num_rejects_witness :
    isUnsignedDecimal (numeric_body "12 ".toList) = false ∧
    read_num "12 ".toList = .error (.InvalidNumber "12 ".toList) :=
  ⟨by decide, read_num_rejects "12 ".toList (by decide)⟩

/-- C4 (as stated) fails: the text `" 5"`, with a leading blank, is not
exactly an unsigned decimal integer, yet `read_num` accepts it and returns 5;
so does `"+5"`. -/
theorem read_num_accepts_leading_blank :
    isUnsignedDecimal " 5".toList = false ∧ read_num " 5".toList = .ok 5 ∧
    isUnsignedDecimal "+5".toList = false ∧ read_num "+5".toList = .ok 5 := by
  decide

/-! ## Range parsing: proofs -/

theorem isdigit_ne_dot {c : Char} (h : isdigit c = true) : c ≠ '.' := by
  rintro rfl
  revert h
  decide

theorem dotdot_toList : "..".toList = ['.', '.'] := rfl

theorem find_dotdot_append (p r : Str) (hp : ∀ c ∈ p, c ≠ '.') :
    find ['.', '.'] (p ++ '.' :: '.' :: r) = some p.length := by
  induction p with
  | nil => simp [find, List.isPrefixOf]
  | cons c cs ih =>
    have hc : c ≠ '.' := hp c (by simp)
    have hc2 : ¬ '.' = c := fun h => hc h.symm
    have := ih (fun d hd => hp d (by simp [hd]))
    simp [find, List.isPrefixOf, hc2, this]

theorem find_some_split (pat : Str) : ∀ (s : Str) (i : Nat), find pat s = some i →
    ∃ pre post, s = pre ++ pat ++ post := by
  intro s
  induction s with
  | nil =>
    intro i h
    simp only [find] at h
    split_ifs at h with hpre
    have : pat = [] := by simpa using hpre
    exact ⟨[], [], by simp [this]⟩
  | cons c cs ih =>
    intro i h
    simp only [find] at h
    split_ifs at h with hpre
    · obtain ⟨t, ht⟩ := List.isPrefixOf_iff_prefix.mp hpre
      exact ⟨[], t, by simp [ht]⟩
    · cases hf : find pat cs with
      | none => simp [hf] at h
      | some j =>
        obtain ⟨pre, post, hs⟩ := ih j hf
        exact ⟨c :: pre, post, by simp [hs]⟩

theorem read_nums_str (a b : Nat) (ha : a < 2 ^ 32) (hb : b < 2 ^ 32) :
    read_nums (str a ++ '.' :: '.' :: str b)
      = if a = b then .error .IdenticalEndpoints else .ok (a, b) := by
  have hfind := find_dotdot_append (str a) (str b)
    (fun c hc => isdigit_ne_dot ((str_spec a).2.1 c hc))
  have h1 : (str a ++ '.' :: '.' :: str b).take (str a).length = str a := by simp
  have h2 : (str a ++ '.' :: '.' :: str b).drop ((str a).length + 2) = str b := by
    rw [show (str a).length + 2 = (str a).length + 2 from rfl, ← List.drop_drop]
    simp
  have hnum : ∀ n : Nat, n < 2 ^ 32 → read_num (str n) = .ok n := by
    intro n hn
    obtain ⟨hne, hdig, hval⟩ := str_spec n
    have hr := read_num_digits (str n) hne hdig (by rw [hval]; simp only [UINT_MAX]; omega)
    rw [hval] at hr
    exact hr
  simp only [read_nums, hfind, h1, h2, hnum a ha, hnum b hb, bind, Except.bind]
  split_ifs <;> rfl

/-- C5: for distinct snapshot numbers `a` and `b` below `2^32`, `read_nums`
on `str a ++ ".." ++ str b` succeeds with the ordered pair `(a, b)`,
whichever endpoint is larger. -/
theorem read_nums_ok (a b : Nat) (ha : a < 2 ^ 32) (hb : b < 2 ^ 32) (hab : a ≠ b) :
    read_nums (str a ++ "..".toList ++ str b) = .ok (a, b) := by
  have := read_nums_str a b ha hb
  rw [if_neg hab] at this
  rw [dotdot_toList]
  simpa using this

theorem read_nums_ok_witness :
    5 < 2 ^ 32 ∧ 3 < 2 ^ 32 ∧ 5 ≠ 3 ∧ read_nums (str 5 ++ "..".toList ++ str 3) = .ok (5, 3) :=
  ⟨by decide, by decide, by decide, read_nums_ok 5 3 (by decide) (by decide) (by decide)⟩

/-- C6: a text without the separator `..` is refused with `InvalidRange`
(no number is read); `str a ++ ".." ++ str a` is refused with
`IdenticalEndpoints` for every snapshot number `a`; and the two numbers of
every successful result differ. -/
theorem read_nums_failures :
    (∀ s : Str, (¬ ∃ pre post, s = pre ++ "..".toList ++ post) →
      read_nums s = .error .InvalidRange) ∧
    (∀ a : Nat, a < 2 ^ 32 →
      read_nums (str a ++ "..".toList ++ str a) = .error .IdenticalEndpoints) ∧
    (∀ (s : Str) (p : Nat × Nat), read_nums s = .ok p → p.1 ≠ p.2) := by
  refine ⟨?_, ?_, ?_⟩
  · intro s hs
    cases hf : find ['.', '.'] s with
    | none => simp [read_nums, hf]
    | some i => exact absurd (find_some_split _ s i hf) hs
  · intro a ha
    have := read_nums_str a a ha ha
    rw [if_pos rfl] at this
    rw [dotdot_toList]
    simpa using this
  · intro s p h
    unfold read_nums at h
    cases hf : find ['.', '.'] s with
    | none => simp [hf] at h
    | some i =>
      simp only [hf] at h
      cases h1 : read_num (s.take i) with
      | error e => simp [h1, bind, Except.bind] at h
      | ok n1 =>
        cases h2 : read_num (s.drop (i + 2)) with
        | error e => simp [h1, h2, bind, Except.bind] at h
        | ok n2 =>
          simp only [h1, h2, bind, Except.bind] at h
          split_ifs at h with heq
          simp only [pure, Except.pure, Except.ok.injEq] at h
          rw [← h]
          exact heq

theorem read_nums_failures_witness :
    read_nums "12".toList = .error .InvalidRange ∧
    read_nums (str 7 ++ "..".toList ++ str 7) = .error .IdenticalEndpoints ∧
    ((5, 3) : Nat × Nat).1 ≠ ((5, 3) : Nat × Nat).2 :=
  ⟨read_nums_failures.1 "12".toList (by
      rintro ⟨pre, post, h⟩
      have hmem : '.' ∈ "12".toList := by rw [h, dotdot_toList]; simp
      revert hmem
      decide),
   read_nums_failures.2.1 7 (by decide),
   read_nums_failures.2.2 "5..3".toList (5, 3) (by decide)⟩

/-! ## Userdata merging: proofs -/

theorem map_find_set (key value k : Str) (m : Userdata) :
    map_find k (map_set key value m) = if key = k then some value else map_find k m := by
  induction m with
  | nil => simp [map_set, map_find]
  | cons e m ih =>
    obtain ⟨k', v'⟩ := e
    by_cases h1 : k' = key
    · subst h1
      by_cases h2 : k' = k <;> simp [map_set, map_find, h2]
    · by_cases h2 : k' = k
      · subst h2
        have h3 : ¬ key = k' := fun h => h1 h.symm
        simp [map_set, map_find, h1, h3]
      · simp [map_set, map_find, h1, h2, ih]

theorem map_find_erase (key k : Str) (m : Userdata) :
    map_find k (map_erase key m) = if key = k then none else map_find k m := by
  induction m with
  | nil => simp [map_erase, map_find]
  | cons e m ih =>
    obtain ⟨k', v'⟩ := e
    by_cases h1 : k' = key
    · subst h1
      by_cases h2 : k' = k
      · subst h2
        simpa [map_erase] using ih
      · simp [map_erase, map_find, h2, ih]
    · by_cases h2 : k' = k
      · subst h2
        have h3 : ¬ key = k' := fun h => h1 h.symm
        simp [map_erase, map_find, h1, h3]
      · simp [map_erase, map_find, h1, h2, ih]

/-- The split always yields at least one token. -/
theorem split_scan_ne_nil (isSep : Char → Bool) (s : Str) :
    ∀ (cur : Str) (inSep : Bool), split_scan isSep cur inSep s ≠ [] := by
  induction s with
  | nil => intro cur inSep; simp [split_scan]
  | cons c cs ih =>
    intro cur inSep
    unfold split_scan
    split_ifs
    · exact ih _ _
    · simp
    · exact ih _ _

/-- One well-formed token: the step succeeds, gives the token's key its
value (or no entry for an empty value) and leaves every other key alone. -/
theorem read_userdata_step_spec (m : Userdata) (it : Str) (hwf : well_formed it = true) :
    ∃ m', read_userdata_step m it = .ok m' ∧ ∀ k, map_find k m' =
      if token_key it = some k then
        (match token_value it with
         | some value => if value.isEmpty then none else some value
         | none => none)
      else map_find k m := by
  unfold well_formed token_key at hwf
  unfold read_userdata_step token_key token_value
  cases hf : find ['='] it with
  | none => simp [hf] at hwf
  | some pos =>
    simp only [hf, Option.map_some'] at hwf ⊢
    have hkey : (trim_copy (it.take pos)).isEmpty = false := by simpa using hwf
    simp only [hkey, Bool.false_eq_true, if_false, Option.some.injEq]
    by_cases hv : (trim_copy (it.drop (pos + 1))).isEmpty = true
    · simp only [hv, if_true]
      exact ⟨_, rfl, fun k => map_find_erase _ k m⟩
    · simp only [hv, if_false]
      exact ⟨_, rfl, fun k => map_find_set _ _ k m⟩

theorem last_token_cons (key it : Str) (tokens : List Str) :
    last_token key (it :: tokens) =
      if token_key it = some key then some ((last_token key tokens).getD it)
      else last_token key tokens := by
  unfold last_token
  by_cases h : token_key it = some key
  · simp [List.filter_cons, h, List.getLast?_cons]
  · simp [List.filter_cons, h]

theorem foldlM_read_userdata_spec (tokens : List Str) : ∀ old : Userdata,
    (∀ it ∈ tokens, well_formed it = true) →
    ∃ m, tokens.foldlM read_userdata_step old = .ok m ∧
      ∀ k, map_find k m = merged_entry old tokens k := by
  induction tokens with
  | nil =>
    intro old _
    exact ⟨old, rfl, fun k => by simp [merged_entry, last_token]⟩
  | cons it tokens ih =>
    intro old hwf
    obtain ⟨m1, hstep, hm1⟩ := read_userdata_step_spec old it (hwf it (by simp))
    obtain ⟨m, hfold, hm⟩ := ih m1 (fun t ht => hwf t (by simp [ht]))
    refine ⟨m, by simp [List.foldlM, hstep, hfold, bind, Except.bind], ?_⟩
    intro k
    rw [hm k]
    unfold merged_entry
    rw [last_token_cons]
    cases hl : last_token k tokens with
    | some t => by_cases hk : token_key it = some k <;> simp [hk]
    | none =>
      simp only [hm1 k]
      by_cases hk : token_key it = some k <;> simp [hk]

/-- C2: when every token of the delta is well-formed, `read_userdata` returns
the map in which each key has the entry of `existing` if no token names it,
and otherwise the trimmed value of the last token naming it, or no entry when
that value is empty.  So `merge({}, "k=v") = {k: v}`, `merge({k: v}, "k=") = {}`
and `merge({k: v1}, "k=v2,k=v3") = {k: v3}`. -/
theorem read_userdata_merge :
    (∀ (delta : Str) (existing : Userdata), (∀ it ∈ split delta, well_formed it = true) →
      ∃ m, read_userdata delta existing = .ok m ∧
        ∀ k, map_find k m = merged_entry existing (split delta) k) ∧
    read_userdata "k=v".toList [] = .ok [("k".toList, "v".toList)] ∧
    read_userdata "k=".toList [("k".toList, "v".toList)] = .ok [] ∧
    read_userdata "k=v2,k=v3".toList [("k".toList, "v1".toList)]
      = .ok [("k".toList, "v3".toList)] := by
  refine ⟨?_, by decide, by decide, by decide⟩
  intro delta existing hwf
  obtain ⟨m, hfold, hm⟩ := foldlM_read_userdata_spec (split delta) existing hwf
  refine ⟨m, ?_, hm⟩
  unfold read_userdata
  cases hs : split delta with
  | nil => exact absurd hs (split_scan_ne_nil _ delta [] false)
  | cons t ts => rw [hs] at hfold; simpa using hfold

theorem read_userdata_merge_witness :
    ∃ m, read_userdata "a=1, b=2,a=".toList [("a".toList, "0".toList)] = .ok m ∧
      ∀ k, map_find k m
        = merged_entry [("a".toList, "0".toList)] (split "a=1, b=2,a=".toList) k :=
  read_userdata_merge.1 "a=1, b=2,a=".toList [("a".toList, "0".toList)] (by decide)

/-! ## Snapshot creation: proofs -/

theorem bind_eq {σ α β : Type} (x : Cmd σ α) (f : α → Cmd σ β) : x >>= f = Cmd.bind x f := rfl

theorem command_create_options_pre_post (opts : parsed_opts) (hasArgs : Bool)
    (r : CreateRequest) (hopts : command_create_options opts hasArgs = .ok r)
    (htype : r.type = .CT_PRE_POST) :
    r.command ≠ [] ∧ map_find "command".toList opts = some r.command ∧
    r.description = (map_find "description".toList opts).getD [] ∧
    r.cleanup = (map_find "cleanup-algorithm".toList opts).getD [] := by
  unfold command_create_options at hopts
  cases hasArgs with
  | true => simp at hopts
  | false =>
    cases h1 : read_create_type opts with
    | error f => simp [h1] at hopts
    | ok type0 =>
      cases h2 : read_pre_number opts with
      | error f => simp [h1, h2] at hopts
      | ok num1 =>
        cases h3 : read_userdata_option opts with
        | error f => simp [h1, h2, h3] at hopts
        | ok userdata =>
          simp only [h1, h2, h3, Bool.false_eq_true, if_false] at hopts
          cases hc : map_find "command".toList opts with
          | none =>
            simp only [hc, Option.isSome_none, Bool.false_eq_true, if_false,
              Option.getD_none, List.isEmpty_nil, and_true] at hopts
            split_ifs at hopts with hpost hcmd
            simp only [Except.ok.injEq] at hopts
            subst hopts
            exact absurd htype hcmd
          | some c =>
            simp only [hc, Option.isSome_some, if_true, Option.getD_some, true_and,
              List.isEmpty_iff, reduceCtorEq, false_and, if_false] at hopts
            split_ifs at hopts with hcmd
            simp only [Except.ok.injEq] at hopts
            subst hopts
            simp [hcmd]

/-- C7: when the options of `create` resolve to the pre/post-around-command
mode (whatever description, cleanup tag and userdata were given) and the
service answers the two calls with `n1` and `n2`, `command_create` performs
exactly: create-pre-snapshot(config, description, cleanup, userdata) giving
`n1`; the run of the non-empty external command, whose status is dropped;
create-post-snapshot(config, n1, "", cleanup, userdata) giving `n2`.  The post
call carries the empty description and the same cleanup and userdata.  The
pair is reported as `n1..n2` when `--print-number` is given. -/
theorem command_create_pre_post {σ : Type} (svc : Service σ) (config_name : Str)
    (opts : parsed_opts) (hasArgs : Bool) (r : CreateRequest) (s0 s1 s3 : σ) (n1 n2 : Nat)
    (hopts : command_create_options opts hasArgs = .ok r)
    (htype : r.type = .CT_PRE_POST)
    (hpre : svc.create_pre_xsnapshot s0 config_name r.description r.cleanup r.userdata
      = (.ok n1, s1))
    (hpost : svc.create_post_xsnapshot (svc.system s1 r.command).2 config_name n1 []
      r.cleanup r.userdata = (.ok n2, s3)) :
    r.command ≠ [] ∧ map_find "command".toList opts = some r.command ∧
    r.description = (map_find "description".toList opts).getD [] ∧
    r.cleanup = (map_find "cleanup-algorithm".toList opts).getD [] ∧
    (command_create svc config_name opts hasArgs s0).outcome = .ret () ∧
    (command_create svc config_name opts hasArgs s0).state = s3 ∧
    (command_create svc config_name opts hasArgs s0).trace =
      [.create_pre_xsnapshot config_name r.description r.cleanup r.userdata (.ok n1),
       .system r.command,
       .create_post_xsnapshot config_name n1 [] r.cleanup r.userdata (.ok n2)]
      ++ (if r.print_number then [.cout (str n1 ++ "..".toList ++ str n2)] else []) := by
  obtain ⟨h1, h2, h3, h4⟩ := command_create_options_pre_post opts hasArgs r hopts htype
  refine ⟨h1, h2, h3, h4, ?_⟩
  unfold command_create
  simp only [hopts, Cmd.lift, bind_eq]
  obtain ⟨type, num1, print_number, description, cleanup, userdata, command⟩ := r
  simp only at htype hpre hpost ⊢
  subst htype
  cases print_number <;>
    simp [command_create_switch, bind_eq, Cmd.bind, Cmd.pure, Cmd.call, Cmd.system, Cmd.cout,
      hpre, hpost, pure]

theorem command_create_pre_post_witness :
    (command_create demo_service "root".toList
      [("command".toList, "touch /x".toList), ("description".toList, "d".toList),
       ("print-number".toList, [])] false 7).trace =
    [.create_pre_xsnapshot "root".toList "d".toList [] [] (.ok 8), .system "touch /x".toList,
     .create_post_xsnapshot "root".toList 8 [] [] [] (.ok 9)]
      ++ (if true then [.cout (str 8 ++ "..".toList ++ str 9)] else []) :=
  (command_create_pre_post demo_service "root".toList
      [("command".toList, "touch /x".toList), ("description".toList, "d".toList),
       ("print-number".toList, [])] false
      { type := .CT_PRE_POST, num1 := 0, print_number := true, description := "d".toList,
        cleanup := [], userdata := [], command := "touch /x".toList }
      7 8 9 8 9 (by decide) rfl rfl rfl).2.2.2.2.2.2

/-! ## Undo: proofs -/

theorem trace_all_pure {σ α : Type} (P : Event → Prop) (a : α) :
    trace_all P (pure a : Cmd σ α) := by
  intro s e he
  simp [pure, Cmd.pure] at he

theorem trace_all_fail {σ α : Type} (P : Event → Prop) (f : Failure) :
    trace_all P (Cmd.fail f : Cmd σ α) := by
  intro s e he
  simp [Cmd.fail] at he

theorem trace_all_lift {σ α : Type} (P : Event → Prop) (x : Except Failure α) :
    trace_all P (Cmd.lift x : Cmd σ α) := by
  cases x with
  | ok a => exact trace_all_pure P a
  | error f => exact trace_all_fail P f

theorem trace_all_call {σ α : Type} (P : Event → Prop) (f : σ → Reply α × σ)
    (ev : Reply α → Event) (h : ∀ r, P (ev r)) : trace_all P (Cmd.call f ev) := by
  intro s e he
  unfold Cmd.call at he
  cases hr : (f s).1 with
  | ok a => simp [hr] at he; rw [he]; exact h _
  | error x => simp [hr] at he; rw [he]; exact h _

theorem trace_all_bind {σ α β : Type} (P : Event → Prop) (x : Cmd σ α) (f : α → Cmd σ β)
    (hx : trace_all P x) (hf : ∀ a, trace_all P (f a)) : trace_all P (x >>= f) := by
  intro s e he
  rw [bind_eq] at he
  unfold Cmd.bind at he
  cases ho : (x s).outcome with
  | ret a =>
    simp only [ho, List.mem_append] at he
    rcases he with he | he
    · exact hx s e he
    · exact hf a _ e he
  | exit f => simp only [ho] at he; exact hx s e he
  | thrown x => simp only [ho] at he; exact hx s e he

/-- Nothing is fetched or committed while the undo set is being built. -/
theorem command_undo_select_no_commit {σ : Type} (svc : Service σ) (config_name : Str)
    (opts : parsed_opts) (args : List Str) (open_file : Str → Option (List Str)) :
    trace_all (fun e => is_commit_event e = false)
      (command_undo_select svc config_name opts args open_file) := by
  unfold command_undo_select
  cases args with
  | nil => exact trace_all_fail _ _
  | cons arg args =>
    refine trace_all_bind _ _ _ (trace_all_lift _ _) (fun nums => ?_)
    refine trace_all_bind _ _ _ (trace_all_lift _ _) (fun file => ?_)
    by_cases h0 : nums.1 = 0
    · rw [if_pos h0]
      exact trace_all_fail _ _
    · rw [if_neg h0]
      refine trace_all_bind _ _ _ (trace_all_call _ _ _ (fun _ => rfl)) (fun _ => ?_)
      refine trace_all_bind _ _ _ (trace_all_call _ _ _ (fun _ => rfl)) (fun _ => ?_)
      cases file with
      | some lines =>
        refine trace_all_bind _ _ _ (trace_all_call _ _ _ (fun _ => rfl)) (fun ci => ?_)
        refine trace_all_bind _ _ _ (trace_all_lift _ _) (fun undos => ?_)
        exact trace_all_bind _ _ _ (trace_all_call _ _ _ (fun _ => rfl))
          (fun _ => trace_all_pure _ _)
      | none =>
        simp only
        by_cases ha : args.isEmpty = true
        · rw [if_pos ha]
          exact trace_all_bind _ _ _ (trace_all_call _ _ _ (fun _ => rfl))
            (fun _ => trace_all_pure _ _)
        · rw [if_neg ha]
          refine trace_all_bind _ _ _ (trace_all_call _ _ _ (fun _ => rfl)) (fun ci => ?_)
          refine trace_all_bind _ _ _ (trace_all_lift _ _) (fun undos => ?_)
          exact trace_all_bind _ _ _ (trace_all_call _ _ _ (fun _ => rfl))
            (fun _ => trace_all_pure _ _)

theorem countP_eq_zero_of_all {P : Event → Bool} {l : List Event}
    (h : ∀ e ∈ l, P e = false) : l.countP P = 0 := by
  rw [List.countP_eq_zero]
  intro e he
  simp [h e he]

/-- The effects of the last part of `command_undo`, by the reply to the
statistics call. -/
theorem command_undo_commit_trace {σ : Type} (svc : Service σ) (config_name : Str)
    (nums : Nat × Nat) (s : σ) :
    (command_undo_commit svc config_name nums s).trace =
      Event.get_xundostatistic config_name nums.1 nums.2
          (svc.get_xundostatistic s config_name nums.1 nums.2).1 ::
        (match (svc.get_xundostatistic s config_name nums.1 nums.2).1 with
         | .error _ => []
         | .ok st =>
           if st.empty then [Event.cout "nothing to do".toList]
           else [Event.cout (show_statistic st),
                 Event.xundo_changes config_name nums.1 nums.2
                   (svc.xundo_changes (svc.get_xundostatistic s config_name nums.1 nums.2).2
                     config_name nums.1 nums.2).1]) := by
  unfold command_undo_commit
  simp only [bind_eq, Cmd.bind, Cmd.call]
  cases hr : (svc.get_xundostatistic s config_name nums.1 nums.2).1 with
  | error e => simp
  | ok st =>
    by_cases he : st.empty = true
    · simp [he, Cmd.cout]
    · simp only [he]
      cases hx : (svc.xundo_changes (svc.get_xundostatistic s config_name nums.1 nums.2).2
          config_name nums.1 nums.2).1 <;> simp [Cmd.cout, Cmd.bind, Cmd.call, hx]

/-- C8: in every run of `command_undo` (file-driven, with path arguments or
for all files) and whatever the service answers: once the statistics call has
returned `st`, if `st` is empty (all three counts zero) the undo is never
applied and "nothing to do" is printed; if `st` is not empty the undo is
applied exactly once, and that after the statistics call. -/
theorem command_undo_commit_guard {σ : Type} (svc : Service σ) (config_name : Str)
    (opts : parsed_opts) (args : List Str) (open_file : Str → Option (List Str)) (s0 : σ)
    (cfg : Str) (n1 n2 : Nat) (st : XUndoStatistic)
    (hst : Event.get_xundostatistic cfg n1 n2 (.ok st)
      ∈ (command_undo svc config_name opts args open_file s0).trace) :
    ((st.numCreate = 0 ∧ st.numModify = 0 ∧ st.numDelete = 0) →
      (command_undo svc config_name opts args open_file s0).trace.countP is_xundo_changes = 0 ∧
      Event.cout "nothing to do".toList
        ∈ (command_undo svc config_name opts args open_file s0).trace) ∧
    (¬ (st.numCreate = 0 ∧ st.numModify = 0 ∧ st.numDelete = 0) →
      ∃ pre post, (command_undo svc config_name opts args open_file s0).trace
          = pre ++ Event.get_xundostatistic cfg n1 n2 (.ok st) :: post ∧
        pre.countP is_xundo_changes = 0 ∧ post.countP is_xundo_changes = 1) := by
  have hsel := command_undo_select_no_commit svc config_name opts args open_file s0
  have hpre : (command_undo_select svc config_name opts args open_file s0).trace.countP
      is_xundo_changes = 0 := by
    apply countP_eq_zero_of_all
    intro e he
    have := hsel e he
    cases e <;> simp_all [is_commit_event, is_xundo_changes]
  have hnot : Event.get_xundostatistic cfg n1 n2 (.ok st)
      ∉ (command_undo_select svc config_name opts args open_file s0).trace := by
    intro hmem
    have := hsel _ hmem
    simp [is_commit_event] at this
  have hempty : st.empty = true ↔ (st.numCreate = 0 ∧ st.numModify = 0 ∧ st.numDelete = 0) := by
    simp [XUndoStatistic.empty, and_assoc]
  unfold command_undo at hst ⊢
  rw [bind_eq] at hst ⊢
  unfold Cmd.bind at hst ⊢
  cases ho : (command_undo_select svc config_name opts args open_file s0).outcome with
  | exit f => simp only [ho] at hst; exact absurd hst hnot
  | thrown x => simp only [ho] at hst; exact absurd hst hnot
  | ret nums =>
    simp only [ho, List.mem_append] at hst ⊢
    have hst2 := hst.resolve_left hnot
    rw [command_undo_commit_trace] at hst2 ⊢
    cases hr : (svc.get_xundostatistic
        (command_undo_select svc config_name opts args open_file s0).state
        config_name nums.1 nums.2).1 with
    | error e => simp [hr] at hst2
    | ok st' =>
      simp only [hr] at hst2 ⊢
      by_cases he : st'.empty = true
      · simp only [he, if_true, List.mem_cons, Event.get_xundostatistic.injEq,
          Except.ok.injEq, List.mem_singleton, reduceCtorEq, or_false, List.not_mem_nil] at hst2 ⊢
        obtain ⟨hc, h1, h2, hs⟩ := hst2
        subst hs
        constructor
        · intro _
          simp [List.countP_append, hpre, List.countP_cons, is_xundo_changes]
        · intro hne
          exact absurd (hempty.mp he) hne
      · simp only [he, Bool.false_eq_true, if_false, List.mem_cons, Event.get_xundostatistic.injEq,
          Except.ok.injEq, List.mem_singleton, reduceCtorEq, or_false, List.not_mem_nil] at hst2 ⊢
        obtain ⟨hc, h1, h2, hs⟩ := hst2
        subst hs hc h1 h2
        constructor
        · intro hz
          exact absurd (hempty.mpr hz) he
        · intro _
          exact ⟨_, _, rfl, hpre, by simp [List.countP_cons, is_xundo_changes]⟩

theorem command_undo_commit_guard_witness :
    (command_undo demo_service "root".toList [] ["1..2".toList] (fun _ => none) 3).trace
      = [.create_xcomparison "root".toList 1 2 (.ok ()), .get_xfiles "root".toList 1 2 (.ok []),
         .set_xundo_all "root".toList 1 2 true (.ok ())]
        ++ Event.get_xundostatistic "root".toList 1 2 (.ok ⟨3, 0, 0⟩)
          :: [.cout "create:3 modify:0 delete:0".toList,
              .xundo_changes "root".toList 1 2 (.ok ())] ∧
    ∃ pre post, (command_undo demo_service "root".toList [] ["1..2".toList]
          (fun _ => none) 3).trace
        = pre ++ Event.get_xundostatistic "root".toList 1 2 (.ok ⟨3, 0, 0⟩) :: post ∧
      pre.countP is_xundo_changes = 0 ∧ post.countP is_xundo_changes = 1 :=
  ⟨by decide,
   (command_undo_commit_guard demo_service "root".toList [] ["1..2".toList] (fun _ => none) 3
      "root".toList 1 2 ⟨3, 0, 0⟩ (by decide)).2 (by decide)⟩

theorem find_char (c : Char) (l : Str) :
    find [c] l = if c ∈ l then some (l.takeWhile (fun d => d ≠ c)).length else none := by
  induction l with
  | nil => simp [find, List.isPrefixOf]
  | cons d ds ih =>
    by_cases hcd : c = d
    · subst hcd
      simp [find, List.isPrefixOf, List.takeWhile]
    · have hdc : ¬ d = c := fun h => hcd h.symm
      simp only [find, List.isPrefixOf, beq_iff_eq, hcd, Bool.and_true, Bool.false_eq_true,
        if_false, ih, List.mem_cons, false_or, Bool.false_and]
      by_cases hm : c ∈ ds
      · simp [hm, List.takeWhile, hdc]
      · simp [hm]

theorem drop_takeWhile_length (p : Char → Bool) (l : Str) :
    l.drop ((l.takeWhile p).length + 1) = (l.dropWhile p).drop 1 := by
  have h : l.drop (l.takeWhile p).length = l.dropWhile p := by
    have h2 := List.drop_left (l.takeWhile p) (l.dropWhile p)
    rw [List.takeWhile_append_dropWhile] at h2
    exact h2
  rw [← h, List.drop_drop, Nat.add_comm]

theorem undo_directives_acc (subvolume : Str) (paths : List Str) : ∀ undos : List XUndo,
    read_undo_args subvolume undos paths =
      (match undo_directives subvolume paths with
       | .error f => .error f
       | .ok more => .ok (undos ++ more)) := by
  induction paths with
  | nil => intro undos; simp [read_undo_args, undo_directives]
  | cons path paths ih =>
    intro undos
    unfold read_undo_args undo_directives
    cases hr : remove_subvolume subvolume path with
    | error f => rfl
    | ok name =>
      simp only [ih]
      cases undo_directives subvolume paths <;> simp

/-- The loop over the input file computes the directives of the paths that its
lines contribute. -/
theorem read_undo_file_acc (subvolume : Str) (lines : List Str) : ∀ undos : List XUndo,
    read_undo_file subvolume undos lines =
      (match undo_directives subvolume (lines.filterMap undo_line_path) with
       | .error f => .error f
       | .ok more => .ok (undos ++ more)) := by
  induction lines with
  | nil => intro undos; simp [read_undo_file, undo_directives]
  | cons line lines ih =>
    intro undos
    have step : ∀ path : Str, undo_line_path line = some path →
        (match remove_subvolume subvolume path with
          | .error f => (.error f : Except Failure (List XUndo))
          | .ok name =>
            read_undo_file subvolume (undos ++ [({ name := name, undo := true } : XUndo)])
              lines) =
        (match undo_directives subvolume ((line :: lines).filterMap undo_line_path) with
          | .error f => .error f
          | .ok more => .ok (undos ++ more)) := by
      intro path hpath
      simp only [List.filterMap_cons, hpath, undo_directives]
      cases remove_subvolume subvolume path with
      | error f => rfl
      | ok name =>
        simp only [ih]
        cases undo_directives subvolume (lines.filterMap undo_line_path) <;> simp
    cases line with
    | nil => simp [read_undo_file, undo_line_path, ih]
    | cons c cs =>
      unfold read_undo_file
      simp only [List.isEmpty_cons, Bool.false_eq_true, if_false, List.head?_cons, ne_eq,
        Option.some.injEq]
      by_cases hc : c = '/'
      · subst hc
        simp only [not_true_eq_false, if_false]
        exact step ('/' :: cs) (by simp [undo_line_path])
      · simp only [hc, not_false_eq_true, if_true]
        rw [find_char]
        by_cases hm : ' ' ∈ c :: cs
        · simp only [hm, if_true]
          rw [drop_takeWhile_length]
          exact step (((c :: cs).dropWhile (fun d => d ≠ ' ')).drop 1)
            (by simp only [undo_line_path, hc, if_false, hm, if_true])
        · simp only [hm, if_false]
          rw [ih]
          simp [undo_line_path, hc, hm]

/-- C9: the loop of `command_undo` over the input lines yields, in input
order, one directive with `undo = true` per surviving line: empty lines are
skipped, a line starting with `/` gives the whole line, another line gives
the text after its first blank or is skipped when it has none, and each path
is mapped with `remove_subvolume`; these are the directives that a
file-driven `command_undo` submits with `set_xundo`.  With root `/`, the
lines "c /etc/foo.conf", "/etc/bar.conf", "" and "garbage" give exactly the
directives for `/etc/foo.conf` and `/etc/bar.conf`. -/
theorem command_undo_file_directives :
    (∀ (subvolume : Str) (lines : List Str),
      read_undo_file subvolume [] lines
        = undo_directives subvolume (lines.filterMap undo_line_path)) ∧
    (∀ {σ : Type} (svc : Service σ) (config_name : Str) (opts : parsed_opts)
      (arg : Str) (args : List Str) (open_file : Str → Option (List Str))
      (name : Str) (lines : List Str) (n1 n2 : Nat) (s0 s1 s2 s3 : σ)
      (files : List XFile) (ci : XConfigInfo) (undos : List XUndo),
      map_find "input".toList opts = some name → open_file name = some lines →
      read_nums arg = .ok (n1, n2) → n1 ≠ 0 →
      svc.create_xcomparison s0 config_name n1 n2 = (.ok (), s1) →
      svc.get_xfiles s1 config_name n1 n2 = (.ok files, s2) →
      svc.get_xconfig s2 config_name = (.ok ci, s3) →
      undo_directives ci.subvolume (lines.filterMap undo_line_path) = .ok undos →
      ∃ post, (command_undo svc config_name opts (arg :: args) open_file s0).trace =
        [.create_xcomparison config_name n1 n2 (.ok ()),
         .get_xfiles config_name n1 n2 (.ok files),
         .get_xconfig config_name (.ok ci),
         .set_xundo config_name n1 n2 undos (svc.set_xundo s3 config_name n1 n2 undos).1]
        ++ post ∧ ∀ e ∈ post, ∀ c a b u r, e ≠ Event.set_xundo c a b u r) ∧
    read_undo_file "/".toList []
        ["c /etc/foo.conf".toList, "/etc/bar.conf".toList, "".toList, "garbage".toList]
      = .ok [{ name := "/etc/foo.conf".toList, undo := true },
             { name := "/etc/bar.conf".toList, undo := true }] := by
  have hfile : ∀ (subvolume : Str) (lines : List Str),
      read_undo_file subvolume [] lines
        = undo_directives subvolume (lines.filterMap undo_line_path) := by
    intro subvolume lines
    rw [read_undo_file_acc]
    cases undo_directives subvolume (lines.filterMap undo_line_path) <;> simp
  refine ⟨hfile, ?_, by decide⟩
  intro σ svc config_name opts arg args open_file name lines n1 n2 s0 s1 s2 s3 files ci undos
    hin hopen hnums hn1 hcmp hfiles hci hundos
  have hread : read_undo_file ci.subvolume [] lines = .ok undos := by rw [hfile, hundos]
  have hsel : (command_undo_select svc config_name opts (arg :: args) open_file s0).trace =
      [.create_xcomparison config_name n1 n2 (.ok ()),
       .get_xfiles config_name n1 n2 (.ok files),
       .get_xconfig config_name (.ok ci),
       .set_xundo config_name n1 n2 undos (svc.set_xundo s3 config_name n1 n2 undos).1] := by
    unfold command_undo_select
    cases hset : (svc.set_xundo s3 config_name n1 n2 undos).1 <;>
      simp only [bind_eq, Cmd.bind, Cmd.lift, Cmd.pure, Cmd.call, open_input, hin, hopen, hnums,
        hn1, hcmp, hfiles, hci, hread, hset, pure, if_false, List.append_nil, List.nil_append,
        List.cons_append, List.singleton_append]
  unfold command_undo
  rw [bind_eq]
  unfold Cmd.bind
  cases ho : (command_undo_select svc config_name opts (arg :: args) open_file s0).outcome with
  | exit f => exact ⟨[], by simp [ho, hsel], by simp⟩
  | thrown x => exact ⟨[], by simp [ho, hsel], by simp⟩
  | ret nums =>
    refine ⟨(command_undo_commit svc config_name nums
      (command_undo_select svc config_name opts (arg :: args) open_file s0).state).trace,
      by simp only [ho, hsel], ?_⟩
    intro e he c a b u r heq
    rw [command_undo_commit_trace] at he
    subst heq
    simp only [List.mem_cons, reduceCtorEq, false_or] at he
    split at he
    · simp at he
    · split_ifs at he <;> simp at he

theorem command_undo_file_directives_witness :
    ∃ post, (command_undo demo_service "root".toList [("input".toList, "f".toList)]
        ("1..2".toList :: []) (fun _ => some ["c /etc/foo.conf".toList, "garbage".toList]) 0).trace =
      [.create_xcomparison "root".toList 1 2 (.ok ()),
       .get_xfiles "root".toList 1 2 (.ok []),
       .get_xconfig "root".toList (.ok ⟨"root".toList, "/".toList⟩),
       .set_xundo "root".toList 1 2 [⟨"/etc/foo.conf".toList, true⟩]
         (demo_service.set_xundo 0 "root".toList 1 2 [⟨"/etc/foo.conf".toList, true⟩]).1]
      ++ post ∧ ∀ e ∈ post, ∀ c a b u r, e ≠ Event.set_xundo c a b u r :=
  command_undo_file_directives.2.1 demo_service "root".toList [("input".toList, "f".toList)]
    "1..2".toList [] (fun _ => some ["c /etc/foo.conf".toList, "garbage".toList])
    "f".toList ["c /etc/foo.conf".toList, "garbage".toList] 1 2 0 0 0 0 []
    ⟨"root".toList, "/".toList⟩ [⟨"/etc/foo.conf".toList, true⟩]
    (by decide) rfl (by decide) (by decide) rfl rfl rfl (by decide)

/-! ## Exit code -/

/-- C10 (the code falls short of it): `snapper -c nosuch create`, answered by
the service with `error.unknown_config`, writes "Unknown config." to `cerr`
and still ends with exit code 0, as does every command that a service error
leaves; a local validation error ends with `EXIT_FAILURE`. -/
theorem main_service_error_exits_zero :
    main (command_create unknown_config_service "nosuch".toList [] false) ()
      = (.exited 0, ["Unknown config.".toList]) ∧
    (∀ {σ : Type} (cmd : Cmd σ Unit) (s : σ) (e : DBusException),
      (cmd s).outcome = .thrown e → (main cmd s).1 = .exited 0) ∧
    main (command_create unknown_config_service "nosuch".toList
      [("type".toList, "post".toList)] false) () = (.exited 1, []) := by
  refine ⟨by decide, ?_, by decide⟩
  intro σ cmd s e h
  simp [main, h, EXIT_SUCCESS]

/-! ## Path mapping: shape and failure -/

theorem remove_subvolume_append (R rest : Str) (hR : R ≠ ['/']) :
    remove_subvolume R (R ++ rest) = .ok rest := by
  simp [remove_subvolume, hR, isPrefixOf_append_self]

theorem get?_append_length (R rest : Str) : (R ++ rest).get? R.length = rest.head? := by
  induction R with
  | nil => cases rest <;> rfl
  | cons c cs ih => simpa using ih

/-- C11 (as the code has it): for every subvolume root `R` other than `/`
and every path `a` that begins with `R`, `remove_subvolume R a` is `a` with
the prefix `R` stripped; the result begins with `/` exactly when the
character of `a` that follows the prefix `R` is `/`. -/
theorem remove_subvolume_strips (R a : Str) (hR : R ≠ ['/']) (ha : ∃ rest, a = R ++ rest) :
    ∃ rest, a = R ++ rest ∧ remove_subvolume R a = .ok rest ∧
      (rest.head? = some '/' ↔ a.get? R.length = some '/') := by
  obtain ⟨rest, hrest⟩ := ha
  subst hrest
  refine ⟨rest, rfl, remove_subvolume_append R rest hR, ?_⟩
  rw [get?_append_length]

theorem remove_subvolume_strips_witness :
    ∃ rest, "/home/user/x".toList = "/home".toList ++ rest ∧
      remove_subvolume "/home".toList "/home/user/x".toList = .ok rest ∧
      (rest.head? = some '/' ↔ ("/home/user/x".toList).get? ("/home".toList).length = some '/') :=
  remove_subvolume_strips "/home".toList "/home/user/x".toList (by decide)
    ⟨"/user/x".toList, by decide⟩

/-- C11 (as stated) fails: with the root `/home`, the path `/homework/x`
begins with the root, and the stripped result `work/x` does not begin with
`/`; the root itself gives the empty result. -/
theorem remove_subvolume_not_rooted :
    "/home".toList ≠ "/".toList ∧
    "/homework/x".toList = "/home".toList ++ "work/x".toList ∧
    remove_subvolume "/home".toList "/homework/x".toList = .ok "work/x".toList ∧
    ("work/x".toList).head? ≠ some '/' ∧
    remove_subvolume "/home".toList "/home".toList = .ok [] := by
  decide

/-- C13: `remove_subvolume R a` fails with `PathNotInSubvolume` if and only
if `a` does not begin with `R`; so whenever it returns a path, `a` begins
with `R`. -/
theorem remove_subvolume_fails_iff (R a : Str) :
    (remove_subvolume R a = .error .PathNotInSubvolume ↔ ¬ ∃ rest, a = R ++ rest) ∧
    (∀ name, remove_subvolume R a = .ok name → ∃ rest, a = R ++ rest) := by
  have hpre : R.isPrefixOf a = true ↔ ∃ rest, a = R ++ rest := by
    rw [List.isPrefixOf_iff_prefix]
    constructor
    · rintro ⟨t, ht⟩; exact ⟨t, ht.symm⟩
    · rintro ⟨t, ht⟩; exact ⟨t, ht.symm⟩
  unfold remove_subvolume
  by_cases h : R.isPrefixOf a = true
  · have hex := hpre.mp h
    constructor
    · simp only [h, Bool.not_true, Bool.false_eq_true, if_false]
      constructor
      · intro hfail
        split_ifs at hfail
      · intro hno
        exact absurd hex hno
    · intro _ _
      exact hex
  · have hno : ¬ ∃ rest, a = R ++ rest := fun hex => h (hpre.mpr hex)
    have hf : R.isPrefixOf a = false := by
      cases hb : R.isPrefixOf a with
      | false => rfl
      | true => exact absurd hb h
    simp [hf, hno]

theorem remove_subvolume_fails_iff_witness :
    remove_subvolume "/home".toList "/etc/x".toList = .error .PathNotInSubvolume ∧
    ∃ rest, "/home/x".toList = "/home".toList ++ rest :=
  ⟨(remove_subvolume_fails_iff "/home".toList "/etc/x".toList).1.mpr (by
      rintro ⟨rest, h⟩
      simp at h),
   (remove_subvolume_fails_iff "/home".toList "/home/x".toList).2 "/x".toList (by decide)⟩

/-! ## Userdata parse errors -/

theorem read_userdata_step_fails (m : Userdata) (it : Str) (h : well_formed it = false) :
    read_userdata_step m it = .error .InvalidUserdata := by
  unfold well_formed token_key at h
  unfold read_userdata_step
  cases hf : find ['='] it with
  | none => rfl
  | some pos =>
    simp only [hf, Option.map_some', Bool.not_eq_false'] at h
    simp [h]

theorem foldlM_read_userdata_fails (tokens : List Str) : ∀ old : Userdata,
    (∃ it ∈ tokens, well_formed it = false) →
    tokens.foldlM read_userdata_step old = .error .InvalidUserdata := by
  induction tokens with
  | nil => intro old h; simp at h
  | cons it tokens ih =>
    intro old h
    cases hwf : well_formed it with
    | false =>
      simp [List.foldlM, read_userdata_step_fails old it hwf, bind, Except.bind]
    | true =>
      obtain ⟨m1, hstep, _⟩ := read_userdata_step_spec old it hwf
      have hrest : ∃ t ∈ tokens, well_formed t = false := by
        obtain ⟨t, ht, hbad⟩ := h
        rcases List.mem_cons.mp ht with heq | hmem
        · rw [heq, hwf] at hbad; exact absurd hbad (by simp)
        · exact ⟨t, hmem, hbad⟩
      simp [List.foldlM, hstep, ih m1 hrest, bind, Except.bind]

theorem read_userdata_eq_foldlM (delta : Str) (existing : Userdata) :
    read_userdata delta existing = (split delta).foldlM read_userdata_step existing := by
  unfold read_userdata
  cases hs : split delta with
  | nil => exact absurd hs (split_scan_ne_nil _ delta [] false)
  | cons t ts => simp

/-- C12 (as the code has it): with the tokens that the code splits off (the
pieces between runs of commas, adjacent commas counting as one separator),
`read_userdata` fails with `InvalidUserdata` exactly when some token lacks a
`=` or has an empty key after trimming, and returns a map for every other
string; so it fails on the empty string, on "novalue" and on "=v". -/
theorem read_userdata_fails_iff (delta : Str) (existing : Userdata) :
    (read_userdata delta existing = .error .InvalidUserdata ↔
      ∃ it ∈ split delta, well_formed it = false) ∧
    ((∀ it ∈ split delta, well_formed it = true) →
      ∃ m, read_userdata delta existing = .ok m) ∧
    read_userdata "".toList existing = .error .InvalidUserdata ∧
    read_userdata "novalue".toList existing = .error .InvalidUserdata ∧
    read_userdata "=v".toList existing = .error .InvalidUserdata := by
  have hbad : ∀ d : Str, (∃ it ∈ split d, well_formed it = false) →
      read_userdata d existing = .error .InvalidUserdata := by
    intro d h
    rw [read_userdata_eq_foldlM]
    exact foldlM_read_userdata_fails _ existing h
  have hgood : (∀ it ∈ split delta, well_formed it = true) →
      ∃ m, read_userdata delta existing = .ok m := by
    intro h
    obtain ⟨m, hm, _⟩ := foldlM_read_userdata_spec (split delta) existing h
    exact ⟨m, by rw [read_userdata_eq_foldlM]; exact hm⟩
  refine ⟨⟨?_, hbad delta⟩, hgood, hbad _ (by decide), hbad _ (by decide), hbad _ (by decide)⟩
  intro hfail
  by_contra hno
  have hall : ∀ it ∈ split delta, well_formed it = true := by
    intro it hit
    cases hw : well_formed it with
    | true => rfl
    | false => exact absurd ⟨it, hit, hw⟩ hno
  obtain ⟨m, hm⟩ := hgood hall
  rw [hm] at hfail
  exact absurd hfail (by simp)

theorem read_userdata_fails_iff_witness :
    read_userdata "a=1,novalue".toList [] = .error .InvalidUserdata ∧
    ∃ m, read_userdata "a=1,,b=2".toList [] = .ok m :=
  ⟨(read_userdata_fails_iff "a=1,novalue".toList []).1.mpr (by decide),
   (read_userdata_fails_iff "a=1,,b=2".toList []).2.1 (by decide)⟩

/-- C12 (as stated) fails: in "a=1,,b=2" the comma-separated token between
the two adjacent commas is empty and so lacks a `=`, yet `read_userdata`
succeeds, because the split merges adjacent commas. -/
theorem read_userdata_merges_commas :
    (∃ it ∈ comma_tokens "a=1,,b=2".toList, find ['='] it = none) ∧
    read_userdata "a=1,,b=2".toList []
      = .ok [("a".toList, "1".toList), ("b".toList, "2".toList)] := by
  decide

/-! ## Post snapshots need a pre number -/

theorem command_create_options_post (opts : parsed_opts) (n : Nat) (ud : Userdata)
    (htype : map_find "type".toList opts = some "post".toList)
    (hcmd : map_find "command".toList opts = none)
    (hnum : read_pre_number opts = .ok n)
    (hud : read_userdata_option opts = .ok ud) :
    command_create_options opts false =
      if n = 0 then .error .MissingPreNumber
      else .ok { type := .CT_POST, num1 := n,
                 print_number := (map_find "print-number".toList opts).isSome,
                 description := (map_find "description".toList opts).getD [],
                 cleanup := (map_find "cleanup-algorithm".toList opts).getD [],
                 userdata := ud, command := [] } := by
  have h1 : read_create_type opts = .ok .CT_POST := by
    unfold read_create_type
    rw [htype]
    rfl
  unfold command_create_options
  simp only [h1, hnum, hud, hcmd, Bool.false_eq_true, if_false, Option.isSome_none,
    Option.getD_none, true_and, reduceCtorEq, false_and]

/-- C14: in a `create` invocation that resolves to the post mode (type `post`,
no command option, the other options readable), `command_create` fails with
`MissingPreNumber` if and only if the pre-number is 0, which it is when the
option is absent; in that case no call to the service is made.  With a
pre-number `n` other than 0 the only call made is one create-post-snapshot
call referencing `n`. -/
theorem command_create_post {σ : Type} (svc : Service σ) (config_name : Str)
    (opts : parsed_opts) (n : Nat) (ud : Userdata) (s0 : σ)
    (htype : map_find "type".toList opts = some "post".toList)
    (hcmd : map_find "command".toList opts = none)
    (hnum : read_pre_number opts = .ok n)
    (hud : read_userdata_option opts = .ok ud) :
    ((command_create svc config_name opts false s0).outcome = .exit .MissingPreNumber
      ↔ n = 0) ∧
    (map_find "pre-number".toList opts = none → n = 0) ∧
    (n = 0 → (command_create svc config_name opts false s0).trace = []) ∧
    (n ≠ 0 → (command_create svc config_name opts false s0).trace =
      Event.create_post_xsnapshot config_name n ((map_find "description".toList opts).getD [])
          ((map_find "cleanup-algorithm".toList opts).getD []) ud
          (svc.create_post_xsnapshot s0 config_name n
            ((map_find "description".toList opts).getD [])
            ((map_find "cleanup-algorithm".toList opts).getD []) ud).1 ::
        (match (svc.create_post_xsnapshot s0 config_name n
            ((map_find "description".toList opts).getD [])
            ((map_find "cleanup-algorithm".toList opts).getD []) ud).1 with
         | .ok num2 =>
           if (map_find "print-number".toList opts).isSome then [Event.cout (str num2)] else []
         | .error _ => [])) := by
  have hopts := command_create_options_post opts n ud htype hcmd hnum hud
  have habsent : map_find "pre-number".toList opts = none → n = 0 := by
    intro h
    unfold read_pre_number at hnum
    rw [h] at hnum
    simp only [Except.ok.injEq] at hnum
    exact hnum.symm
  generalize (map_find "description".toList opts).getD [] = description at hopts ⊢
  generalize (map_find "cleanup-algorithm".toList opts).getD [] = cleanup at hopts ⊢
  generalize (map_find "print-number".toList opts).isSome = print_number at hopts ⊢
  by_cases hn : n = 0
  · rw [if_pos hn] at hopts
    have hrun : command_create svc config_name opts false s0
        = { outcome := .exit .MissingPreNumber, state := s0, trace := [] } := by
      unfold command_create
      simp only [hopts, Cmd.lift, bind_eq, Cmd.bind, Cmd.fail]
    rw [hrun]
    exact ⟨by simp [hn], habsent, fun _ => rfl, fun h => absurd hn h⟩
  · rw [if_neg hn] at hopts
    refine ⟨?_, habsent, fun h => absurd h hn, fun _ => ?_⟩
    · unfold command_create
      simp only [hopts, Cmd.lift, bind_eq, command_create_switch]
      cases hr : (svc.create_post_xsnapshot s0 config_name n description cleanup ud).1 with
      | error e => simp [Cmd.bind, Cmd.pure, Cmd.call, hr, hn]
      | ok num2 =>
        cases print_number <;> simp [Cmd.bind, Cmd.pure, Cmd.call, Cmd.cout, hr, hn, pure]
    · unfold command_create
      simp only [hopts, Cmd.lift, bind_eq, command_create_switch]
      cases hr : (svc.create_post_xsnapshot s0 config_name n description cleanup ud).1 with
      | error e => simp [Cmd.bind, Cmd.pure, Cmd.call, hr]
      | ok num2 =>
        cases print_number <;> simp [Cmd.bind, Cmd.pure, Cmd.call, Cmd.cout, hr, pure]

theorem command_create_post_witness :
    ((command_create demo_service "root".toList [("type".toList, "post".toList)] false 7).outcome
        = .exit .MissingPreNumber ↔ 0 = 0) ∧
    (command_create demo_service "root".toList [("type".toList, "post".toList)] false 7).trace
      = [] ∧
    (command_create demo_service "root".toList
        [("type".toList, "post".toList), ("pre-number".toList, "5".toList)] false 7).trace
      = [.create_post_xsnapshot "root".toList 5 [] [] [] (.ok 8)] :=
  ⟨(command_create_post demo_service "root".toList [("type".toList, "post".toList)] 0 [] 7
      (by decide) (by decide) (by decide) (by decide)).1,
   (command_create_post demo_service "root".toList [("type".toList, "post".toList)] 0 [] 7
      (by decide) (by decide) (by decide) (by decide)).2.2.1 rfl,
   (command_create_post demo_service "root".toList
      [("type".toList, "post".toList), ("pre-number".toList, "5".toList)] 5 [] 7
      (by decide) (by decide) (by decide) (by decide)).2.2.2 (by decide)⟩

/-! ## Status listing read back as undo input -/

theorem remove_subvolume_add (R p : Str) (hp : p.head? = some '/') :
    remove_subvolume R (add_subvolume R p) = .ok p := by
  unfold add_subvolume
  by_cases hR : R = ['/']
  · rw [if_pos hR, hR]
    cases p with
    | nil => simp at hp
    | cons c cs =>
      simp only [List.head?_cons, Option.some.injEq] at hp
      rw [hp]
      simp [remove_subvolume]
  · rw [if_neg hR]
    exact remove_subvolume_append R p hR

theorem dropWhile_ne_append (c : Char) (t r : Str) (ht : c ∉ t) :
    (t ++ c :: r).dropWhile (fun d => d ≠ c) = c :: r := by
  induction t with
  | nil => simp [List.dropWhile]
  | cons d ds ih =>
    have hd : d ≠ c := fun h => ht (by simp [h])
    have hds : c ∉ ds := fun h => ht (by simp [h])
    rw [List.cons_append, List.dropWhile_cons_of_pos (by simp [hd])]
    exact ih hds

/-- The path that a written status line contributes is the absolute name. -/
theorem undo_line_path_status_line (R : Str) (f : XFile) (hsp : ' ' ∉ f.status)
    (hst : f.status.head? ≠ some '/') :
    undo_line_path (status_line R f) = some (add_subvolume R f.name) := by
  unfold status_line
  generalize add_subvolume R f.name = path
  cases ht : f.status with
  | nil => simp [undo_line_path, List.dropWhile]
  | cons c cs =>
    rw [ht] at hsp hst
    have hc : c ≠ '/' := by simpa using hst
    have hdrop := dropWhile_ne_append ' ' (c :: cs) path hsp
    simp only [List.append_assoc, List.singleton_append, List.cons_append, List.nil_append]
      at hdrop ⊢
    simp only [undo_line_path, hc, if_false, List.mem_cons, List.mem_append, true_or, or_true,
      if_true, hdrop, List.drop_succ_cons, List.drop_zero]

theorem undo_directives_status_lines (R : Str) (files : List XFile)
    (h : ∀ f ∈ files, f.name.head? = some '/' ∧ ' ' ∉ f.status ∧ f.status.head? ≠ some '/') :
    undo_directives R ((files.map (status_line R)).filterMap undo_line_path)
      = .ok (files.map (fun f => { name := f.name, undo := true })) := by
  induction files with
  | nil => rfl
  | cons f fs ih =>
    obtain ⟨hn, hsp, hst⟩ := h f (by simp)
    have hrest := ih (fun g hg => h g (by simp [hg]))
    simp only [List.map_cons, List.filterMap_cons, undo_line_path_status_line R f hsp hst,
      undo_directives, remove_subvolume_add R f.name hn, hrest]

theorem write_status_run {σ : Type} (file : Option Str) (subvolume : Str) (files : List XFile)
    (s : σ) :
    write_status file subvolume files s =
      { outcome := .ret (), state := s,
        trace := files.map (fun f => output_event file (status_line subvolume f)) } := by
  induction files with
  | nil => rfl
  | cons f fs ih => simp [write_status, Cmd.bind, Cmd.fprintf, ih]

/-- C15: for every subvolume root `R`, every file name `n` beginning with `/`
and every status token `t` with no blank and no `/` at its start, the line
`t ++ " " ++ add_subvolume R n` that `command_status` writes is read by the
file loop of `command_undo` as exactly one directive, with `undo = true` and
name `n`; a whole listing read back line by line gives the directives of its
file names in the same order; and these lines are what `command_status`
writes for the files of the comparison. -/
theorem status_lines_read_back :
    (∀ (R n t : Str), n.head? = some '/' → ' ' ∉ t → t.head? ≠ some '/' →
      status_line R { name := n, status := t } = t ++ " ".toList ++ add_subvolume R n ∧
      read_undo_file R [] [status_line R { name := n, status := t }]
        = .ok [{ name := n, undo := true }]) ∧
    (∀ (R : Str) (files : List XFile),
      (∀ f ∈ files, f.name.head? = some '/' ∧ ' ' ∉ f.status ∧ f.status.head? ≠ some '/') →
      read_undo_file R [] (files.map (status_line R))
        = .ok (files.map (fun f => { name := f.name, undo := true }))) ∧
    (∀ {σ : Type} (svc : Service σ) (config_name : Str) (opts : parsed_opts) (arg : Str)
      (can_open : Str → Bool) (n1 n2 : Nat) (s0 s1 s2 s3 : σ) (files : List XFile)
      (ci : XConfigInfo),
      map_find "output".toList opts = none →
      read_nums arg = .ok (n1, n2) →
      svc.create_xcomparison s0 config_name n1 n2 = (.ok (), s1) →
      svc.get_xfiles s1 config_name n1 n2 = (.ok files, s2) →
      svc.get_xconfig s2 config_name = (.ok ci, s3) →
      (command_status svc config_name opts [arg] can_open s0).trace =
        [.create_xcomparison config_name n1 n2 (.ok ()),
         .get_xfiles config_name n1 n2 (.ok files),
         .get_xconfig config_name (.ok ci)]
        ++ files.map (fun f => Event.cout (status_line ci.subvolume f))) := by
  have hlist : ∀ (R : Str) (files : List XFile),
      (∀ f ∈ files, f.name.head? = some '/' ∧ ' ' ∉ f.status ∧ f.status.head? ≠ some '/') →
      read_undo_file R [] (files.map (status_line R))
        = .ok (files.map (fun f => { name := f.name, undo := true })) := by
    intro R files h
    rw [read_undo_file_acc, undo_directives_status_lines R files h]
    simp
  refine ⟨?_, hlist, ?_⟩
  · intro R n t hn hsp hst
    refine ⟨rfl, ?_⟩
    have := hlist R [{ name := n, status := t }] (by
      intro f hf
      simp only [List.mem_singleton] at hf
      subst hf
      exact ⟨hn, hsp, hst⟩)
    simpa using this
  · intro σ svc config_name opts arg can_open n1 n2 s0 s1 s2 s3 files ci hout hnums hcmp
      hfiles hci
    unfold command_status
    simp only [bind_eq, Cmd.bind, Cmd.lift, Cmd.pure, Cmd.call, open_output, hout, hnums, hcmp,
      hfiles, hci, write_status_run, output_event, List.append_nil, List.nil_append,
      List.cons_append, List.singleton_append]

theorem status_lines_read_back_witness :
    read_undo_file "/home".toList []
        ([{ name := "/a b".toList, status := "c..".toList },
          { name := "/etc/x".toList, status := "+..".toList }].map (status_line "/home".toList))
      = .ok ([{ name := "/a b".toList, status := "c..".toList },
          { name := "/etc/x".toList, status := "+..".toList }].map
            (fun f : XFile => ({ name := f.name, undo := true } : XUndo))) :=
  status_lines_read_back.2.1 "/home".toList
    [{ name := "/a b".toList, status := "c..".toList },
     { name := "/etc/x".toList, status := "+..".toList }] (by decide)

end Snapper
